import Mathlib

/-!
# Verification of the Bayesian-Optimization core of coffee-tracker

Shallow embedding of `src/js/bayesian/boService.js`, `gaussianProcess.js`
and `kernels.js` (the `BOStorage` and `AcquisitionFunctions` modules live in
the latter file).  JavaScript numbers are modelled as `ℚ`; `Math.sqrt` and
`Math.exp` are abstracted as function parameters (`sqrtFn`, `expFn`), since
they have no exact rational counterpart; thrown JS exceptions are modelled
with `Except`; `null`/`undefined` results with `Option`.
-/

/-- JS parameter type strings (`Config.PARAMETER_TYPES`). -/
inductive ParamType where
  | slider
  | number
  | dropdown
  | text
deriving DecidableEq, Repr

/-- A JS parameter value: a number or a string (dropdown option / text). -/
inductive ParamVal where
  | num (q : ℚ)
  | str (s : String)
deriving DecidableEq, Repr

/-- `Number(value)` as used on parameter values.  In JS, `Number` of a
non-numeric string is `NaN`; `NaN` has no rational counterpart and every
claim's hypotheses keep continuous parameter values numeric, so the string
case is mapped to 0. -/
def toNum : ParamVal → ℚ
  | .num q => q
  | .str _ => 0

/-- `param.config`: the kind-specific configuration object.  Absent fields
are `Option`s (`config.options || []` is modelled by storing the list
directly, `[]` for absent). -/
structure ParamConfig where
  min : ℚ
  max : ℚ
  step : Option ℚ
  options : List String
  dflt : Option ℚ
deriving DecidableEq, Repr

/-- A machine parameter (`{id, name, type, config}`). -/
structure Param where
  id : String
  name : String
  type : ParamType
  config : ParamConfig
deriving DecidableEq, Repr

/-- A machine: its ordered parameter list. -/
structure Machine where
  parameters : List Param
deriving DecidableEq, Repr

/-- A run record as consumed by the BO service: its rating (`null` = `none`)
and its `parameterValues` map.  A missing association models both
`undefined` and `null` (the source checks the two together). -/
structure BrewRun where
  rating : Option ℚ
  parameterValues : List (String × ParamVal)
deriving DecidableEq, Repr

/-- `state.gpHyperparameters`. -/
structure GPHyper where
  lengthScale : ℚ
  outputScale : ℚ
  noise : ℚ
deriving DecidableEq, Repr

/-- One stored observation. -/
structure Obs where
  parameters : List ℚ
  rawValues : List (String × ParamVal)
  rating : ℚ
deriving DecidableEq, Repr

/-- Per-(bean, machine) BO state record. -/
structure BOState where
  observations : List Obs
  parameterMetadata : List Param
  gpHyperparameters : GPHyper
  lastUpdated : ℚ
deriving DecidableEq, Repr

/-- The BO service configuration object. -/
structure BOConfig where
  minRunsThreshold : ℚ
  explorationFactor : ℚ
  numCandidates : Nat
  kernelLengthScale : ℚ
  kernelOutputScale : ℚ
  kernelNoise : ℚ
  maxObservations : ℤ
  numberParamPadding : ℚ
deriving DecidableEq, Repr

/-- Modelled from the spec: `Config.BO_CONFIG` is referenced by
`boService.js` but its definition is not among the provided sources; the
spec's configuration table (§4.4.6) lists the defaults:
threshold 5, exploration 2.0, 100 candidates, length scale 0.3,
output scale 1.0, noise 0.1, 100 observations, padding 0.2. -/
def defaultBOConfig : BOConfig :=
  ⟨5, 2, 100, 3/10, 1, 1/10, 100, 1/5⟩

/-- JS `x || d` for an optional number (`undefined` and `0` are falsy). -/
def jsOrQ : Option ℚ → ℚ → ℚ
  | none, d => d
  | some q, d => if q = 0 then d else q

/-- JS `x || d` for an optional count (`undefined` and `0` are falsy). -/
def jsOrNat : Option Nat → Nat → Nat
  | none, d => d
  | some n, d => if n = 0 then d else n

/-- `Math.round`: round half towards `+∞`. -/
def jsRound (q : ℚ) : ℤ := ⌊q + 1/2⌋

/-- `String.prototype.endsWith`. -/
def jsEndsWith (s suffx : String) : Bool := decide (suffx.data <:+ s.data)

/-- `options.indexOf(value)`: `-1` when absent; a number never equals an
option string under `===`. -/
def jsIndexOf (options : List String) : ParamVal → ℤ
  | .str s =>
    match options.findIdx? (fun o => o == s) with
    | some i => (i : ℤ)
    | none => -1
  | .num _ => -1

/-- `Math.min(...l)` for a non-empty list (the service never takes the min
of an empty spread; `Math.min()` of nothing would be `Infinity`). -/
def listMin : List ℚ → ℚ
  | [] => 0
  | x :: xs => xs.foldl min x

/-- `Math.max(...l)` for a non-empty list. -/
def listMax : List ℚ → ℚ
  | [] => 0
  | x :: xs => xs.foldl max x

/-- `arr.slice(start)` with a single (possibly negative) integer argument. -/
def jsSliceOne {α : Type} (l : List α) (start : ℤ) : List α :=
  if 0 ≤ start then l.drop start.toNat
  else l.drop ((l.length : ℤ) + start).toNat

/-- The durable store (`BOStorage`): a key-value map, keys unique. -/
def Store : Type := List (String × BOState)

/-- `BOStorage.get` (returns `null` when absent). -/
def storeGet (st : Store) (k : String) : Option BOState := st.lookup k

/-- JS object upsert (`allStates[key] = state`): replace in place, else
append. -/
def storeSet : Store → String → BOState → Store
  | [], k, v => [(k, v)]
  | kv :: rest, k, v => if kv.1 = k then (k, v) :: rest else kv :: storeSet rest k v

/-- `delete allStates[key]` (`BOStorage.remove`). -/
def storeRemove (st : Store) (k : String) : Store :=
  st.filter (fun kv => kv.1 ≠ k)

/-- `BOStorage.keys()` (`Object.keys`). -/
def storeKeys (st : Store) : List String := st.map (fun kv => kv.1)

/-- The machine repository (`Repository.MachineRepository`). -/
structure Env where
  machines : List (String × Machine)
deriving DecidableEq

/-- `Repository.MachineRepository.getById`. -/
def getMachineById (env : Env) (id : String) : Option Machine :=
  env.machines.lookup id

/-- `_makeKey(beanId, machineId)`. -/
def makeKey (beanId machineId : String) : String := beanId ++ "_" ++ machineId

/-- The raw-value history of one parameter, collected from a state's
observations.  This block appears verbatim twice in the source, inside
`_normalizeParameter` and `_denormalizeParameter` (NUMBER branch); it is
shared here. -/
def collectRawValues (state : BOState) (pid : String) : List ℚ :=
  state.observations.foldl
    (fun acc obs =>
      match obs.rawValues.lookup pid with
      | some v => acc ++ [toNum v]
      | none => acc)
    []

/-- The dynamic `[minVal, maxVal]` envelope for an unbounded-continuous
parameter: padded by `range * padding` when the values spread, widened by
±1 when they coincide. -/
def numberEnvelope (padding : ℚ) (allValues : List ℚ) : ℚ × ℚ :=
  let minVal := listMin allValues
  let maxVal := listMax allValues
  let range := maxVal - minVal
  if 0 < range then (minVal - range * padding, maxVal + range * padding)
  else (minVal - 1, maxVal + 1)

/-- `_normalizeParameter(value, param, state)`.  `padding` is
`config.numberParamPadding`.  Divisions that are `NaN`/`Infinity` in JS
(e.g. a slider with `min = max`) are total in `ℚ` (`x / 0 = 0`); every
claim's hypotheses exclude them. -/
def normalizeParameter (padding : ℚ) (value : ParamVal) (param : Param)
    (state : BOState) : ℚ :=
  let numValue := toNum value
  match param.type with
  | .slider =>
    (numValue - param.config.min) / (param.config.max - param.config.min)
  | .number =>
    let allValues := collectRawValues state param.id ++ [numValue]
    -- source: `if (allValues.length > 0)`; the current value was just
    -- pushed, so the `return 0.5` default branch is kept but unreachable
    if allValues.length ≠ 0 then
      let lohi := numberEnvelope padding allValues
      (numValue - lohi.1) / (lohi.2 - lohi.1)
    else 1/2
  | .dropdown =>
    let options := param.config.options
    let idx := jsIndexOf options value
    if idx = -1 then 0
    else if options.length = 1 then 0
    else (idx : ℚ) / ((options.length : ℚ) - 1)
  | .text => 1/2

/-- `_denormalizeParameter(normalized, param, state)`. -/
def denormalizeParameter (padding : ℚ) (normalized : ℚ) (param : Param)
    (state : BOState) : ParamVal :=
  match param.type with
  | .slider =>
    let mn := param.config.min
    let mx := param.config.max
    let step := jsOrQ param.config.step 1
    let value := mn + normalized * (mx - mn)
    let rounded := (jsRound (value / step) : ℚ) * step
    .num (max mn (min mx rounded))
  | .number =>
    let allValues := collectRawValues state param.id
    if allValues.length ≠ 0 then
      let lohi := numberEnvelope padding allValues
      let value := lohi.1 + normalized * (lohi.2 - lohi.1)
      .num ((jsRound (value * 100) : ℚ) / 100)
    else .num (jsOrQ param.config.dflt 0)
  | .dropdown =>
    let options := param.config.options
    if options.length = 0 then .str ""
    else
      let idx := jsRound (normalized * ((options.length : ℚ) - 1))
      .str (options.getD (max 0 (min idx ((options.length : ℤ) - 1))).toNat "")
  | .text => .str ""

/-- Thrown JS exceptions, by cause. -/
inductive JsErr where
  | machineNotFound
  | typeError
  | invalidInput
  | numerical
deriving DecidableEq, Repr

/-- `_getOptimizableParameters(machine)`: slider, number and dropdown
parameters, in declared order. -/
def getOptimizableParameters (machine : Machine) : List Param :=
  machine.parameters.filter
    (fun p => p.type == ParamType.slider || p.type == ParamType.number ||
      p.type == ParamType.dropdown)

/-- The per-parameter loop body of `_runToObservation`: walks the captured
metadata, looks the value up in the run, finds the machine's parameter of
the same id, and accumulates the normalized vector together with the
raw-value map. -/
def buildObsParams (padding : ℚ) (run : BrewRun) (machine : Machine)
    (state : BOState) : List Param → Option (List ℚ × List (String × ParamVal))
  | [] => some ([], [])
  | pm :: rest =>
    match run.parameterValues.lookup pm.id with
    | none => none
    | some value =>
      match machine.parameters.find? (fun p => p.id == pm.id) with
      | none => none
      | some param =>
        match buildObsParams padding run machine state rest with
        | none => none
        | some pr =>
          some (normalizeParameter padding value param state :: pr.1,
            (pm.id, value) :: pr.2)

/-- `_runToObservation(run, machine, metadata, existingState)`.  The caller
guarantees a rating; JS would coerce a `null` rating to 0, modelled by
`getD 0`. -/
def runToObservation (padding : ℚ) (run : BrewRun) (machine : Machine)
    (metadata : List Param) (existingState : BOState) : Option Obs :=
  match buildObsParams padding run machine existingState metadata with
  | none => none
  | some pr => some ⟨pr.1, pr.2, ((run.rating.getD 0) - 1) / 9⟩

/-- `initializeOptimizer(beanId, machineId)`: throws when the machine is
missing, returns `false` without writing when nothing is optimizable, else
writes a fresh state capturing metadata and the configured kernel
hyperparameters.  `now` models `Date.now()`. -/
def initializeOptimizer (cfg : BOConfig) (env : Env) (now : ℚ)
    (beanId machineId : String) (store : Store) : Store × Except JsErr Bool :=
  match getMachineById env machineId with
  | none => (store, .error .machineNotFound)
  | some machine =>
    let optimizableParams := getOptimizableParameters machine
    if optimizableParams.length = 0 then (store, .ok false)
    else
      let key := makeKey beanId machineId
      let state : BOState :=
        ⟨[], optimizableParams.map (fun p => ⟨p.id, p.name, p.type, p.config⟩),
          ⟨cfg.kernelLengthScale, cfg.kernelOutputScale, cfg.kernelNoise⟩, now⟩
      (storeSet store key state, .ok true)

/-- The tail of `updateWithRun` once a state is at hand: convert, append,
tail-cap with `slice(-maxObservations)`, stamp, store.  Returns the
appended observation (if any) alongside the store, so that ingestion logs
can be stated; `updateWithRun` discards it. -/
def updateWithRunCore (cfg : BOConfig) (now : ℚ) (key : String)
    (machine : Machine) (run : BrewRun) (state : BOState) (store : Store) :
    Store × Except JsErr (Option Obs) :=
  match runToObservation cfg.numberParamPadding run machine
      state.parameterMetadata state with
  | none => (store, .ok none)
  | some observation =>
    let obs1 := state.observations ++ [observation]
    let obs2 :=
      if cfg.maxObservations < (obs1.length : ℤ) then
        jsSliceOne obs1 (-cfg.maxObservations)
      else obs1
    (storeSet store key ⟨obs2, state.parameterMetadata,
      state.gpHyperparameters, now⟩, .ok (some observation))

/-- `updateWithRun(beanId, machineId, run)` (instrumented: also returns the
observation it appended, when it appended one).  An unrated run and a
missing machine are silent no-ops; a missing state is lazily initialized
(which writes a fresh empty state before the observation is examined). -/
def updateWithRunAux (cfg : BOConfig) (env : Env) (now : ℚ)
    (beanId machineId : String) (run : BrewRun) (store : Store) :
    Store × Except JsErr (Option Obs) :=
  match run.rating with
  | none => (store, .ok none)
  | some _ =>
    match getMachineById env machineId with
    | none => (store, .ok none)
    | some machine =>
      let key := makeKey beanId machineId
      match storeGet store key with
      | some state => updateWithRunCore cfg now key machine run state store
      | none =>
        match initializeOptimizer cfg env now beanId machineId store with
        | (store1, .error e) => (store1, .error e)
        | (store1, .ok false) => (store1, .ok none)
        | (store1, .ok true) =>
          match storeGet store1 key with
          | none => (store1, .error .typeError)
          | some state => updateWithRunCore cfg now key machine run state store1

/-- `updateWithRun` as the caller sees it. -/
def updateWithRun (cfg : BOConfig) (env : Env) (now : ℚ)
    (beanId machineId : String) (run : BrewRun) (store : Store) :
    Store × Except JsErr Unit :=
  let r := updateWithRunAux cfg env now beanId machineId run store
  (r.1, r.2.map (fun _ => ()))

/-- A sequence of `updateWithRun` calls against one (bean, machine) key,
accumulating the log of appended observations. -/
def ingestAll (cfg : BOConfig) (env : Env) (beanId machineId : String) :
    List (BrewRun × ℚ) → Store → List Obs → Except JsErr (Store × List Obs)
  | [], store, log => .ok (store, log)
  | rn :: rest, store, log =>
    match updateWithRunAux cfg env rn.2 beanId machineId rn.1 store with
    | (store1, .ok obsOpt) => ingestAll cfg env beanId machineId rest store1 (log ++ obsOpt.toList)
    | (_, .error e) => .error e

/-- `clearOptimizer(beanId, machineId)`. -/
def clearOptimizer (beanId machineId : String) (store : Store) : Store :=
  storeRemove store (makeKey beanId machineId)

/-- `clearOptimizersForMachine(machineId)`: removes every stored key that
ends with `` `_${machineId}` ``. -/
def clearOptimizersForMachine (machineId : String) (store : Store) : Store :=
  let allKeys := storeKeys store
  let keysToRemove := allKeys.filter (fun key => jsEndsWith key ("_" ++ machineId))
  keysToRemove.foldl (fun st key => storeRemove st key) store

/-- A `setConfig` patch: the fields present in the `updates` object. -/
structure BOConfigPatch where
  minRunsThreshold : Option ℚ
  explorationFactor : Option ℚ
  numCandidates : Option Nat
  kernelLengthScale : Option ℚ
  kernelOutputScale : Option ℚ
  kernelNoise : Option ℚ
  maxObservations : Option ℤ
  numberParamPadding : Option ℚ
deriving DecidableEq

/-- `setConfig(updates)`: `config = { ...config, ...updates }`. -/
def setConfig (cfg : BOConfig) (patch : BOConfigPatch) : BOConfig :=
  ⟨patch.minRunsThreshold.getD cfg.minRunsThreshold,
    patch.explorationFactor.getD cfg.explorationFactor,
    patch.numCandidates.getD cfg.numCandidates,
    patch.kernelLengthScale.getD cfg.kernelLengthScale,
    patch.kernelOutputScale.getD cfg.kernelOutputScale,
    patch.kernelNoise.getD cfg.kernelNoise,
    patch.maxObservations.getD cfg.maxObservations,
    patch.numberParamPadding.getD cfg.numberParamPadding⟩

/-- `RBFKernel.compute(x1, x2)` with hyperparameters `lengthScale`,
`outputScale`; `expFn` abstracts `Math.exp`.  A dimension mismatch
throws. -/
def rbfCompute (expFn : ℚ → ℚ) (lengthScale outputScale : ℚ)
    (x1 x2 : List ℚ) : Except JsErr ℚ :=
  if x1.length ≠ x2.length then .error .invalidInput
  else
    let squaredDist :=
      (x1.zip x2).foldl (fun acc p => acc + (p.1 - p.2) * (p.1 - p.2)) 0
    .ok (outputScale * expFn (-(1/2) * squaredDist / (lengthScale * lengthScale)))

/-- `GP._computeKernelMatrix(X1, X2)`; the first kernel error propagates. -/
def computeKernelMatrix (k : List ℚ → List ℚ → Except JsErr ℚ)
    (X1 X2 : List (List ℚ)) : Except JsErr (List (List ℚ)) :=
  X1.mapM (fun x1 => X2.mapM (fun x2 => k x1 x2))

/-- `K[i][i] += c` for every `i` (noise and jitter both use this). -/
def addDiag (K : List (List ℚ)) (c : ℚ) : List (List ℚ) :=
  K.enum.map (fun ir => ir.2.enum.map (fun jx => if ir.1 = jx.1 then jx.2 + c else jx.2))

/-- Matrix entry access `A[i][j]` (0 outside, standing for the untouched
zero-initialized entries of the source's square arrays). -/
def entry (A : List (List ℚ)) (i j : Nat) : ℚ := (A.getD i []).getD j 0

/-- `Σ_k a[k] * b[k]` over the common prefix: the partial sums
`Σ_{k<j} L[i][k] * L[j][k]` of `_cholesky`. -/
def dotTrunc (a b : List ℚ) : ℚ :=
  (a.zip b).foldl (fun acc p => acc + p.1 * p.2) 0

/-- One row of `_cholesky`'s lower-triangular factor: the inner `j ≤ i`
loop.  `cur` carries the entries `L[i][0..j-1]` already produced; the
diagonal residual `A[i][i] - Σ L[i][k]²` must be positive, otherwise the
source throws `'Matrix not positive definite'` (here: `none`). -/
def cholRow (sqrtFn : ℚ → ℚ) (A : List (List ℚ)) (rows : List (List ℚ))
    (i : Nat) : Option (List ℚ) :=
  (List.range (i + 1)).foldlM
    (fun cur j =>
      if j = i then
        let val := entry A i i - dotTrunc cur cur
        if val ≤ 0 then none
        else some (cur ++ [sqrtFn val])
      else
        let rowj := rows.getD j []
        some (cur ++ [(entry A i j - dotTrunc cur rowj) / rowj.getD j 0]))
    []

/-- `GP._cholesky(A)`: rows are built top-down; each row is kept to its
lower-triangular length (the source's trailing zeros are reproduced by
`entry`'s default). -/
def cholesky (sqrtFn : ℚ → ℚ) (A : List (List ℚ)) : Option (List (List ℚ)) :=
  (List.range A.length).foldlM
    (fun rows i => (cholRow sqrtFn A rows i).map (fun r => rows ++ [r])) []

/-- `GP._forwardSubstitution(L)`: solve `L Y = I`. -/
def forwardSubstitution (L : List (List ℚ)) : List (List ℚ) :=
  let N := L.length
  (List.range N).foldl
    (fun Y i =>
      Y ++ [(List.range N).map (fun j =>
        if i = j then 1 / entry L i i
        else if j < i then
          -(((List.range i).drop j).foldl
              (fun acc k => acc + entry L i k * entry Y k j) 0) / entry L i i
        else 0)])
    []

/-- `GP._backwardSubstitution(L, Y)`: solve `Lᵀ inv = Y`, rows built from
the bottom up (`inv` accumulates the rows `i+1 .. N-1`). -/
def backwardSubstitution (L Y : List (List ℚ)) : List (List ℚ) :=
  let N := L.length
  (List.range N).foldl
    (fun inv i' =>
      let i := N - 1 - i'
      (List.range N).map (fun j =>
        (entry Y i j -
            ((List.range N).drop (i + 1)).foldl
              (fun acc k => acc + entry L k i * entry inv (k - i - 1) j) 0) /
          entry L i i) :: inv)
    []

/-- `GP._choleskyInverse(A)`. -/
def choleskyInverse (sqrtFn : ℚ → ℚ) (A : List (List ℚ)) :
    Option (List (List ℚ)) :=
  (cholesky sqrtFn A).map (fun L => backwardSubstitution L (forwardSubstitution L))

/-- `GP._matvec(A, v)`. -/
def matvec (A : List (List ℚ)) (v : List ℚ) : List ℚ :=
  A.map (fun row => (List.range v.length).foldl
    (fun acc j => acc + row.getD j 0 * v.getD j 0) 0)

/-- The trained-GP fields cached by `fit`. -/
structure GPModel where
  Xtrain : List (List ℚ)
  ytrain : List ℚ
  Kinv : List (List ℚ)
  alpha : List ℚ
deriving DecidableEq, Repr

/-- `GP.fit(X, y)`: length checks, kernel matrix, noise on the diagonal,
Cholesky inverse with one jitter (+0.01) retry; a second failure
propagates as a numerical error. -/
def gpFit (sqrtFn : ℚ → ℚ) (kernelFn : List ℚ → List ℚ → Except JsErr ℚ)
    (noise : ℚ) (X : List (List ℚ)) (y : List ℚ) : Except JsErr GPModel :=
  if X.length ≠ y.length then .error .invalidInput
  else if X.length = 0 then .error .invalidInput
  else
    match computeKernelMatrix kernelFn X X with
    | .error e => .error e
    | .ok K0 =>
      let K := addDiag K0 noise
      match choleskyInverse sqrtFn K with
      | some Kinv => .ok ⟨X, y, Kinv, matvec Kinv y⟩
      | none =>
        match choleskyInverse sqrtFn (addDiag K (1/100)) with
        | some Kinv => .ok ⟨X, y, Kinv, matvec Kinv y⟩
        | none => .error .numerical

/-- One iteration of `GP.predict`'s loop: the mean `k(x*, X)·α` and the
variance `max 0 (k(x*,x*) − k·K⁻¹·kᵀ)` at one test row (`xk` pairs the test
point with its row of `K_star`). -/
def gpPredictOne (kernelFn : List ℚ → List ℚ → Except JsErr ℚ)
    (model : GPModel) (xk : List ℚ × List ℚ) : Except JsErr (ℚ × ℚ) :=
  let mean := (List.range model.ytrain.length).foldl
    (fun acc j => acc + xk.2.getD j 0 * model.alpha.getD j 0) 0
  match kernelFn xk.1 xk.1 with
  | .error e => .error e
  | .ok ktt =>
    let n := model.Xtrain.length
    let kKinv := (List.range n).map (fun j =>
      (List.range n).foldl
        (fun acc k => acc + xk.2.getD k 0 * entry model.Kinv k j) 0)
    let kKk := (List.range n).foldl
      (fun acc j => acc + kKinv.getD j 0 * xk.2.getD j 0) 0
    .ok (mean, max 0 (ktt - kKk))

/-- `GP.predict(X_test)` on a fitted model. -/
def gpPredict (kernelFn : List ℚ → List ℚ → Except JsErr ℚ) (model : GPModel)
    (Xtest : List (List ℚ)) : Except JsErr (List ℚ × List ℚ) :=
  match computeKernelMatrix kernelFn Xtest model.Xtrain with
  | .error e => .error e
  | .ok Kstar =>
    match (Xtest.zip Kstar).mapM (gpPredictOne kernelFn model) with
    | .error e => .error e
    | .ok pairs => .ok (pairs.map (fun p => p.1), pairs.map (fun p => p.2))

/-- `AcquisitionFunctions.ucb(mean, variance, exploration)`. -/
def ucb (sqrtFn : ℚ → ℚ) (mean variance exploration : ℚ) : ℚ :=
  mean + exploration * sqrtFn (max 0 variance)

/-- `AcquisitionFunctions.findMaxUCB(means, variances, exploration)`:
strict-improvement scan starting from `maxUCB = -Infinity` (`⊥`),
`maxIndex = 0`; empty candidate arrays throw. -/
def findMaxUCB (sqrtFn : ℚ → ℚ) (means variances : List ℚ)
    (exploration : ℚ) : Except JsErr Nat :=
  if means.length = 0 then .error .invalidInput
  else
    .ok ((List.range means.length).foldl
      (fun acc i =>
        let u := ucb sqrtFn (means.getD i 0) (variances.getD i 0) exploration
        if acc.1 < (u : WithBot ℚ) then ((u : WithBot ℚ), i) else acc)
      ((⊥ : WithBot ℚ), 0)).2

/-- The UCB score of candidate `i`, as scanned by `findMaxUCB`. -/
def ucbScore (sqrtFn : ℚ → ℚ) (means variances : List ℚ)
    (exploration : ℚ) (i : Nat) : ℚ :=
  ucb sqrtFn (means.getD i 0) (variances.getD i 0) exploration

/-- `_generateCandidates(numDims, numCandidates)`; `rng` abstracts the
stream of `Math.random()` draws, consumed row-major. -/
def generateCandidates (rng : Nat → ℚ) (numDims numCandidates : Nat) :
    List (List ℚ) :=
  (List.range numCandidates).map
    (fun i => (List.range numDims).map (fun j => rng (i * numDims + j)))

/-- `_denormalizeRating(normalizedRating)`. -/
def denormalizeRating (r : ℚ) : ℚ := r * 9 + 1

/-- `v` is JS-falsy (`0` or `''`). -/
def jsFalsy : ParamVal → Bool
  | .num q => q == 0
  | .str s => s == ""

/-- Alist upsert, for `parameterValues[id] = v`. -/
def alistSet : List (String × ParamVal) → String → ParamVal →
    List (String × ParamVal)
  | [], k, v => [(k, v)]
  | kv :: rest, k, v =>
    if kv.1 = k then (k, v) :: rest else kv :: alistSet rest k v

/-- The suggestion object assembled by `_suggestionToRun` (constant fields
such as `id: 'ai-suggestion'`, `rating: null`, `isAISuggestion: true` are
left implicit). -/
structure Suggestion where
  beanId : String
  machineId : String
  parameterValues : List (String × ParamVal)
  timestamp : ℚ
  expectedRating : Option ℚ
  expectedStddev : Option ℚ
deriving DecidableEq, Repr

/-- `_suggestionToRun(normalizedParams, machine, beanId, machineId,
metadata, state, expectedRating, variance)`. -/
def suggestionToRun (sqrtFn : ℚ → ℚ) (padding : ℚ) (now : ℚ)
    (normalizedParams : List ℚ) (machine : Machine)
    (beanId machineId : String) (metadata : List Param) (state : BOState)
    (expectedRating variance : Option ℚ) : Suggestion :=
  let pv1 := metadata.enum.foldl
    (fun pv ipm =>
      match machine.parameters.find? (fun p => p.id == ipm.2.id) with
      | none => pv
      | some param =>
        alistSet pv param.id
          (denormalizeParameter padding (normalizedParams.getD ipm.1 0) param state))
    []
  let pv2 := machine.parameters.foldl
    (fun pv param =>
      if param.type == ParamType.text &&
          ((pv.lookup param.id).map jsFalsy).getD true then
        alistSet pv param.id (.str "")
      else pv)
    pv1
  let stddev := variance.map (fun v => sqrtFn (max 0 v))
  ⟨beanId, machineId, pv2, now,
    expectedRating.map (fun r => r * 9 + 1), stddev.map (fun s => s * 9)⟩

/-- The `try`-block of `suggestParameters`: train, sample candidates,
predict, arg-max UCB, decode. -/
def suggestBody (expFn sqrtFn : ℚ → ℚ) (cfg : BOConfig) (rng : Nat → ℚ)
    (now : ℚ) (beanId machineId : String) (machine : Machine)
    (state : BOState) : Except JsErr Suggestion :=
  let Xtrain := state.observations.map (fun o => o.parameters)
  let ytrain := state.observations.map (fun o => o.rating)
  let kernelFn := rbfCompute expFn state.gpHyperparameters.lengthScale
    state.gpHyperparameters.outputScale
  match gpFit sqrtFn kernelFn state.gpHyperparameters.noise Xtrain ytrain with
  | .error e => .error e
  | .ok gp =>
    let numDims := state.parameterMetadata.length
    let candidates := generateCandidates rng numDims cfg.numCandidates
    match gpPredict kernelFn gp candidates with
    | .error e => .error e
    | .ok mv =>
      match findMaxUCB sqrtFn mv.1 mv.2 cfg.explorationFactor with
      | .error e => .error e
      | .ok bestIdx =>
        .ok (suggestionToRun sqrtFn cfg.numberParamPadding now
          (candidates.getD bestIdx []) machine beanId machineId
          state.parameterMetadata state
          (some (mv.1.getD bestIdx 0)) (some (mv.2.getD bestIdx 0)))

/-- `suggestParameters(beanId, machineId)`: `null` when the machine or the
state is missing or the state has no observations; the whole pipeline is
wrapped in `try { ... } catch { return null }`, so an internal error also
yields `null` and the store is only ever read. -/
def suggestParameters (expFn sqrtFn : ℚ → ℚ) (cfg : BOConfig) (env : Env)
    (rng : Nat → ℚ) (now : ℚ) (beanId machineId : String) (store : Store) :
    Store × Option Suggestion :=
  match getMachineById env machineId with
  | none => (store, none)
  | some machine =>
    match storeGet store (makeKey beanId machineId) with
    | none => (store, none)
    | some state =>
      if state.observations.length = 0 then (store, none)
      else
        match suggestBody expFn sqrtFn cfg rng now beanId machineId machine state with
        | .ok s => (store, some s)
        | .error _ => (store, none)

/-- `_generateParameterSamples(parameter, numPoints, observations)`: for the
three optimizable kinds, `numPoints` linearly spaced samples of
`i / (numPoints - 1)`; a text parameter matches no branch and yields `[]`.
(The `observations` argument of the source is unused there too.)  With
`numPoints = 1` JS produces `0/0 = NaN`; in `ℚ` this is `0`, and no claim
exercises it. -/
def generateParameterSamples (parameter : Param) (numPoints : Nat) : List ℚ :=
  match parameter.type with
  | .slider | .number | .dropdown =>
    (List.range numPoints).map (fun i => (i : ℚ) / ((numPoints : ℚ) - 1))
  | .text => []

/-- The closest-sample scan of `getPredictionCurve` step 8: starts from
index 0 and keeps the first index of minimal distance. -/
def closestSampleIdx (samples : List ℚ) (normValue : ℚ) : Nat :=
  ((samples.enum.drop 1).foldl
    (fun best is =>
      if |is.2 - normValue| < best.2 then (is.1, |is.2 - normValue|) else best)
    (0, |samples.getD 0 0 - normValue|)).1

/-- The options object of `getPredictionCurve`
(`{numPoints: 50, fixedValues: {...}}`). -/
structure CurveOpts where
  numPoints : Option Nat
  fixedValues : List (String × ParamVal)
deriving DecidableEq, Repr

/-- The curve record returned by `getPredictionCurve`. -/
structure Curve where
  paramValues : List ParamVal
  ratings : List ℚ
  uncertainties : List ℚ
  parameterName : String
  parameterType : ParamType
  validIndices : Option (List Nat)
deriving DecidableEq, Repr

/-- Step 5 of `getPredictionCurve`: the test vectors.  Position
`paramIndex` takes the sample; every other position encodes the fixed
value against the current state.  A metadata id absent from the machine
makes `_normalizeParameter` read `.type` of `undefined` — a thrown
`TypeError`.  A *missing fixed value* is JS `undefined`: `Number(undefined)`
is `NaN`, which flows through the curve's numbers without throwing; `NaN`
has no rational counterpart and is modelled as the number 0 (no claim
inspects curve values computed from a missing fixed value). -/
def buildTestVectors (padding : ℚ) (machine : Machine) (state : BOState)
    (paramIndex : Nat) (fixedValues : List (String × ParamVal))
    (samples : List ℚ) : Except JsErr (List (List ℚ)) :=
  samples.mapM (fun normValue =>
    state.parameterMetadata.enum.mapM (fun ipm =>
      if ipm.1 = paramIndex then (.ok normValue : Except JsErr ℚ)
      else
        match machine.parameters.find? (fun p => p.id == ipm.2.id) with
        | none => .error .typeError
        | some fullP =>
          .ok (normalizeParameter padding
            ((fixedValues.lookup ipm.2.id).getD (.num 0)) fullP state)))

/-- `getPredictionCurve(beanId, machineId, paramIndex, options)`.  Unlike
`suggestParameters` there is no `try`/`catch`: `null` is returned only when
the state is missing or has no observations; later failures (a `null`
machine, an out-of-range `paramIndex`, a metadata id absent from the
machine, a GP error) are thrown to the caller. -/
def getPredictionCurve (expFn sqrtFn : ℚ → ℚ) (cfg : BOConfig) (env : Env)
    (beanId machineId : String) (paramIndex : Nat) (opts : CurveOpts)
    (store : Store) : Store × Except JsErr (Option Curve) :=
  let numPoints := jsOrNat opts.numPoints 50
  let fixedValues := opts.fixedValues
  match storeGet store (makeKey beanId machineId) with
  | none => (store, .ok none)
  | some state =>
    if state.observations.length = 0 then (store, .ok none)
    else
      -- `targetParam` is read before the machine, but its `.id` is only
      -- dereferenced (throwing when out of range) after
      -- `machine.parameters` has been dereferenced (throwing on a missing
      -- machine)
      match getMachineById env machineId with
      | none => (store, .error .typeError)
      | some machine =>
        match state.parameterMetadata.get? paramIndex with
        | none => (store, .error .typeError)
        | some targetParam =>
          match machine.parameters.find? (fun p => p.id == targetParam.id) with
          | none => (store, .error .typeError)
          | some fullParam =>
            let normalizedSamples := generateParameterSamples fullParam numPoints
            match buildTestVectors cfg.numberParamPadding machine state
                paramIndex fixedValues normalizedSamples with
            | .error e => (store, .error e)
            | .ok Xtest =>
              let kernelFn := rbfCompute expFn
                state.gpHyperparameters.lengthScale
                state.gpHyperparameters.outputScale
              let Xtrain := state.observations.map (fun o => o.parameters)
              let ytrain := state.observations.map (fun o => o.rating)
              match gpFit sqrtFn kernelFn state.gpHyperparameters.noise
                  Xtrain ytrain with
              | .error e => (store, .error e)
              | .ok gp =>
                match gpPredict kernelFn gp Xtest with
                | .error e => (store, .error e)
                | .ok mv =>
                  let paramValues := normalizedSamples.map (fun u =>
                    denormalizeParameter cfg.numberParamPadding u fullParam state)
                  let ratings := mv.1.map denormalizeRating
                  let uncertainties := mv.2.map (fun v => sqrtFn v * 9)
                  let validIndices :=
                    if fullParam.type == ParamType.dropdown then
                      some (fullParam.config.options.enum.map (fun io =>
                        let normValue :=
                          if fullParam.config.options.length = 1 then 0
                          else (io.1 : ℚ) /
                            ((fullParam.config.options.length : ℚ) - 1)
                        closestSampleIdx normalizedSamples normValue))
                    else none
                  (store, .ok (some ⟨paramValues, ratings, uncertainties,
                    fullParam.name, fullParam.type, validIndices⟩))

theorem lookup_cons_self {β : Type} (k : String) (v : β)
    (l : List (String × β)) : ((k, v) :: l).lookup k = some v := by
  simp [List.lookup]

theorem lookup_cons_ne {β : Type} (k k' : String) (v : β)
    (l : List (String × β)) (h : k' ≠ k) :
    ((k, v) :: l).lookup k' = l.lookup k' := by
  have hb : (k' == k) = false := beq_eq_false_iff_ne.mpr h
  simp [List.lookup, hb]

theorem storeGet_storeSet_self (st : Store) (k : String) (v : BOState) :
    storeGet (storeSet st k v) k = some v := by
  induction st with
  | nil => simp only [storeGet, storeSet]; exact lookup_cons_self k v []
  | cons kv rest ih =>
    obtain ⟨a, b⟩ := kv
    simp only [storeGet, storeSet] at ih ⊢
    by_cases h : a = k
    · subst h
      simp only [if_pos rfl]
      exact lookup_cons_self a v rest
    · rw [if_neg h, lookup_cons_ne _ _ _ _ (fun hk => h hk.symm)]
      exact ih

theorem storeGet_storeSet_ne (st : Store) (k k' : String) (v : BOState)
    (h : k' ≠ k) : storeGet (storeSet st k v) k' = storeGet st k' := by
  induction st with
  | nil =>
    simp only [storeGet, storeSet]
    rw [lookup_cons_ne _ _ _ _ h]
  | cons kv rest ih =>
    obtain ⟨a, b⟩ := kv
    simp only [storeGet, storeSet] at ih ⊢
    by_cases hk : a = k
    · subst hk
      simp only [eq_self_iff_true, if_true]
      rw [lookup_cons_ne _ _ _ _ h, lookup_cons_ne _ _ _ _ h]
    · rw [if_neg hk]
      by_cases hk' : k' = a
      · subst hk'
        rw [lookup_cons_self, lookup_cons_self]
      · rw [lookup_cons_ne _ _ _ _ hk', lookup_cons_ne _ _ _ _ hk']
        exact ih

theorem storeGet_storeRemove (st : Store) (k k' : String) :
    storeGet (storeRemove st k) k' = if k' = k then none else storeGet st k' := by
  induction st with
  | nil => simp [storeGet, storeRemove, List.lookup]
  | cons kv rest ih =>
    obtain ⟨a, b⟩ := kv
    simp only [storeGet, storeRemove, List.filter_cons] at ih ⊢
    by_cases hk : a = k
    · have : (decide ((a, b).1 ≠ k)) = false := by simp [hk]
      rw [this]
      simp only [Bool.false_eq_true, if_false]
      rw [ih]
      by_cases h : k' = k
      · simp [h]
      · rw [if_neg h, if_neg h, lookup_cons_ne _ _ _ _ (fun hh => h (hh.trans hk))]
    · have : (decide ((a, b).1 ≠ k)) = true := by simp [hk]
      rw [this]
      simp only [if_true]
      by_cases hk' : k' = a
      · subst hk'
        rw [lookup_cons_self, lookup_cons_self, if_neg hk]
      · rw [lookup_cons_ne _ _ _ _ hk', lookup_cons_ne _ _ _ _ hk']
        exact ih

theorem storeGet_eq_none_of_not_mem (st : Store) (k : String)
    (h : k ∉ storeKeys st) : storeGet st k = none := by
  induction st with
  | nil => rfl
  | cons kv rest ih =>
    obtain ⟨a, b⟩ := kv
    simp only [storeKeys, List.map_cons, List.mem_cons] at h
    push_neg at h
    simp only [storeGet] at ih ⊢
    rw [lookup_cons_ne _ _ _ _ h.1]
    exact ih (by simpa [storeKeys] using h.2)

/-- C10: `suggestParameters` and `getPredictionCurve` never modify the
persisted BO state: whatever they return (a result, null, or — for the
curve — a thrown error), the durable store they hand back is exactly the
store they were given, so every key's record is unchanged. -/
theorem C10_read_side_preserves_store (expFn sqrtFn : ℚ → ℚ)
    (cfg : BOConfig) (env : Env) (rng : Nat → ℚ) (now : ℚ)
    (beanId machineId : String) (paramIndex : Nat) (opts : CurveOpts)
    (store : Store) :
    (suggestParameters expFn sqrtFn cfg env rng now beanId machineId store).1
        = store ∧
    (getPredictionCurve expFn sqrtFn cfg env beanId machineId paramIndex opts
        store).1 = store := by
  constructor
  · unfold suggestParameters
    repeat' split <;> try rfl
  · unfold getPredictionCurve
    repeat' split <;> try rfl
    all_goals (dsimp only; repeat' split <;> try rfl)

/-- C4: for every training set accepted by `GP.fit` (equal non-zero lengths,
kernel matrix computed), with `K` the kernel matrix plus the noise term on
the diagonal: if the Cholesky decomposition of `K` fails the
positive-definite test, jitter `0.01` is added to the diagonal and the
decomposition is retried exactly once — if the retried decomposition also
fails, `fit` reports the numerical error to its caller; if either
decomposition succeeds, `fit` succeeds with that factorization's inverse.
There is no third attempt and no silent success after a second failure. -/
theorem C4_fit_jitter_retry_once (sqrtFn : ℚ → ℚ)
    (kernelFn : List ℚ → List ℚ → Except JsErr ℚ) (noise : ℚ)
    (X : List (List ℚ)) (y : List ℚ) (K0 : List (List ℚ))
    (hlen : X.length = y.length) (hne : X ≠ [])
    (hK : computeKernelMatrix kernelFn X X = .ok K0) :
    (cholesky sqrtFn (addDiag K0 noise) = none →
      cholesky sqrtFn (addDiag (addDiag K0 noise) (1/100)) = none →
      gpFit sqrtFn kernelFn noise X y = .error .numerical) ∧
    (∀ L, cholesky sqrtFn (addDiag K0 noise) = none →
      cholesky sqrtFn (addDiag (addDiag K0 noise) (1/100)) = some L →
      gpFit sqrtFn kernelFn noise X y =
        .ok ⟨X, y, backwardSubstitution L (forwardSubstitution L),
          matvec (backwardSubstitution L (forwardSubstitution L)) y⟩) ∧
    (∀ L, cholesky sqrtFn (addDiag K0 noise) = some L →
      gpFit sqrtFn kernelFn noise X y =
        .ok ⟨X, y, backwardSubstitution L (forwardSubstitution L),
          matvec (backwardSubstitution L (forwardSubstitution L)) y⟩) := by
  have hcond1 : ¬(X.length ≠ y.length) := fun h => h hlen
  have hcond2 : ¬(X.length = 0) := fun h => hne (List.length_eq_zero.mp h)
  refine ⟨fun h1 h2 => ?_, fun L h1 h2 => ?_, fun L h1 => ?_⟩
  · simp only [gpFit]
    rw [if_neg hcond1, if_neg hcond2, hK]
    simp only [choleskyInverse, h1, h2, Option.map_none', Option.map_some']
  · simp only [gpFit]
    rw [if_neg hcond1, if_neg hcond2, hK]
    simp only [choleskyInverse, h1, h2, Option.map_none', Option.map_some']
  · simp only [gpFit]
    rw [if_neg hcond1, if_neg hcond2, hK]
    simp only [choleskyInverse, h1, Option.map_some']

/-- Witness for C4: the constant kernel `-1` on a single observation gives
`K = [[-1]]`; with noise 0 the diagonal residual `-1` fails the
positive-definite test, the jittered `-0.99` fails again, and `fit`
reports the numerical error. -/
theorem C4_witness :
    computeKernelMatrix (fun _ _ => (.ok (-1) : Except JsErr ℚ)) [[0]] [[0]]
        = .ok [[-1]] ∧
    gpFit (fun q => q) (fun _ _ => (.ok (-1) : Except JsErr ℚ)) 0 [[0]] [0]
        = .error .numerical := by
  have hc1 : cholesky (fun q => q) (addDiag [[-1]] 0) = none := by
    norm_num [cholesky, cholRow, addDiag, entry, dotTrunc, List.foldlM,
      List.range_succ, List.enum, List.enumFrom]
  have hc2 : cholesky (fun q => q) (addDiag (addDiag [[-1]] 0) (1/100)) = none := by
    norm_num [cholesky, cholRow, addDiag, entry, dotTrunc, List.foldlM,
      List.range_succ, List.enum, List.enumFrom]
  exact ⟨rfl,
    (C4_fit_jitter_retry_once (fun q => q) (fun _ _ => .ok (-1)) 0 [[0]] [0]
      [[-1]] rfl (by decide) rfl).1 hc1 hc2⟩

theorem storeGet_foldl_storeRemove (ks : List String) (store : Store)
    (key : String) :
    storeGet (ks.foldl (fun st k => storeRemove st k) store) key
      = if key ∈ ks then none else storeGet store key := by
  induction ks generalizing store with
  | nil => simp
  | cons k ks ih =>
    simp only [List.foldl_cons, List.mem_cons]
    rw [ih, storeGet_storeRemove]
    by_cases hks : key ∈ ks
    · simp [hks]
    · by_cases hk : key = k <;> simp [hk, hks]

/-- Every key built by `_makeKey` for machine `m` ends with `` `_m` ``. -/
theorem makeKey_endsWith (beanId machineId : String) :
    jsEndsWith (makeKey beanId machineId) ("_" ++ machineId) = true := by
  simp only [jsEndsWith, makeKey, decide_eq_true_eq, String.data_append]
  rw [List.append_assoc]
  exact List.suffix_append _ _

/-- The BO state used by concrete counterexamples (contents irrelevant). -/
def cexState : BOState := ⟨[], [], ⟨1, 1, 1⟩, 0⟩

/-- Counterexample to C9 as stated: the key of bean `"a"` and machine
`"b_c"` is `"a_b_c"`, whose machine component `"b_c"` differs from `"c"`;
yet `clearOptimizersForMachine "c"` removes it, because the removal
criterion is the string suffix `"_c"`.  So over-removal happens for
machine ids containing underscores. -/
theorem C9_counterexample :
    ("b_c" : String) ≠ "c" ∧
    storeGet [(makeKey "a" "b_c", cexState)] (makeKey "a" "b_c")
      = some cexState ∧
    storeGet (clearOptimizersForMachine "c" [(makeKey "a" "b_c", cexState)])
      (makeKey "a" "b_c") = none := by
  refine ⟨by decide, by decide, by decide⟩

/-- C9 (amended): `clearOptimizersForMachine m` removes exactly the keys
that end with the string `` `_m` `` — every key whose machine component is
`m` is among them (no under-removal), but a key whose bean–machine pair
merely makes the full key end in `` `_m` `` (e.g. machine id `"b_c"` when
clearing `"c"`) is removed as well; every other key is untouched. -/
theorem C9_clear_by_suffix (machineId key : String) (store : Store) :
    (storeGet (clearOptimizersForMachine machineId store) key
      = if jsEndsWith key ("_" ++ machineId) then none else storeGet store key) ∧
    (∀ beanId, jsEndsWith (makeKey beanId machineId) ("_" ++ machineId) = true) := by
  constructor
  · unfold clearOptimizersForMachine
    rw [storeGet_foldl_storeRemove]
    by_cases hend : jsEndsWith key ("_" ++ machineId)
    · simp only [hend, if_true]
      by_cases hmem : key ∈ storeKeys store
      · rw [if_pos (List.mem_filter.mpr ⟨hmem, hend⟩)]
      · rw [if_neg (fun hc => hmem (List.mem_filter.mp hc).1)]
        exact storeGet_eq_none_of_not_mem store key hmem
    · have hend' : jsEndsWith key ("_" ++ machineId) = false :=
        Bool.eq_false_iff.mpr hend
      simp only [hend', Bool.false_eq_true, if_false]
      have hnot : key ∉ List.filter
          (fun k => jsEndsWith k ("_" ++ machineId)) (storeKeys store) :=
        fun hc => hend (List.mem_filter.mp hc).2
      rw [if_neg hnot]
  · exact fun beanId => makeKey_endsWith beanId machineId

/-- The run lacks a value (absent, `undefined` or `null`) for at least one
parameter captured in the metadata. -/
def missingOptimizableValue (run : BrewRun) (metadata : List Param) : Prop :=
  ∃ pm ∈ metadata, run.parameterValues.lookup pm.id = none

instance (run : BrewRun) (metadata : List Param) :
    Decidable (missingOptimizableValue run metadata) := by
  unfold missingOptimizableValue
  infer_instance

theorem buildObsParams_eq_none_of_missing (padding : ℚ) (run : BrewRun)
    (machine : Machine) (state : BOState) (metadata : List Param)
    (h : missingOptimizableValue run metadata) :
    buildObsParams padding run machine state metadata = none := by
  induction metadata with
  | nil => obtain ⟨pm, hpm, _⟩ := h; cases hpm
  | cons pm rest ih =>
    obtain ⟨pm', hpm', hval⟩ := h
    rcases List.mem_cons.mp hpm' with h1 | h1
    · subst h1
      simp only [buildObsParams, hval]
    · cases hv : run.parameterValues.lookup pm.id with
      | none => simp only [buildObsParams, hv]
      | some v =>
        have hrest := ih ⟨pm', h1, hval⟩
        simp only [buildObsParams, hv, hrest]
        cases machine.parameters.find? (fun p => p.id == pm.id) <;> rfl

theorem runToObservation_eq_none_of_missing (padding : ℚ) (run : BrewRun)
    (machine : Machine) (state : BOState) (metadata : List Param)
    (h : missingOptimizableValue run metadata) :
    runToObservation padding run machine metadata state = none := by
  simp only [runToObservation,
    buildObsParams_eq_none_of_missing padding run machine state metadata h]

/-- The fresh empty state written by `initializeOptimizer`. -/
def freshBOState (cfg : BOConfig) (machine : Machine) (now : ℚ) : BOState :=
  ⟨[], (getOptimizableParameters machine).map
      (fun p => ⟨p.id, p.name, p.type, p.config⟩),
    ⟨cfg.kernelLengthScale, cfg.kernelOutputScale, cfg.kernelNoise⟩, now⟩

theorem initializeOptimizer_eq_of_machine (cfg : BOConfig) (env : Env)
    (now : ℚ) (beanId machineId : String) (store : Store) (machine : Machine)
    (hm : getMachineById env machineId = some machine)
    (hopt : getOptimizableParameters machine ≠ []) :
    initializeOptimizer cfg env now beanId machineId store
      = (storeSet store (makeKey beanId machineId)
          (freshBOState cfg machine now), .ok true) := by
  have hlen : ¬(getOptimizableParameters machine).length = 0 :=
    fun h => hopt (List.length_eq_zero.mp h)
  simp only [initializeOptimizer, hm, if_neg hlen, freshBOState]

/-- Counterexample to C2 as stated: with no state for `("b", "m")`, a rated
run missing the single optimizable parameter's value is rejected — yet the
store changes: lazy initialization has already persisted a fresh empty
state for the key, so "whether a record exists at all" is not preserved. -/
theorem C2_counterexample :
    storeGet [] (makeKey "b" "m") = none ∧
    (updateWithRunAux ⟨5, 2, 100, 1, 1, 1, 100, 0⟩
        ⟨[("m", ⟨[⟨"g", "Grind", .slider, ⟨0, 10, some 1, [], none⟩⟩]⟩)]⟩
        7 "b" "m" ⟨some 5, []⟩ []).2 = .ok none ∧
    storeGet (updateWithRunAux ⟨5, 2, 100, 1, 1, 1, 100, 0⟩
        ⟨[("m", ⟨[⟨"g", "Grind", .slider, ⟨0, 10, some 1, [], none⟩⟩]⟩)]⟩
        7 "b" "m" ⟨some 5, []⟩ []).1 (makeKey "b" "m")
      = some ⟨[], [⟨"g", "Grind", .slider, ⟨0, 10, some 1, [], none⟩⟩],
          ⟨1, 1, 1⟩, 7⟩ := by
  refine ⟨rfl, rfl, rfl⟩

/-- C2 (amended): a rated run missing the value of at least one captured
optimizable parameter is rejected with no observation appended; when a
state already exists for the key the store is completely unchanged, and
when none exists the only change is the fresh empty state written by lazy
initialization. -/
theorem C2_missing_value_rejected (cfg : BOConfig) (env : Env) (now : ℚ)
    (beanId machineId : String) (run : BrewRun) (store : Store)
    (machine : Machine) (r : ℚ)
    (hrated : run.rating = some r)
    (hm : getMachineById env machineId = some machine) :
    (∀ state, storeGet store (makeKey beanId machineId) = some state →
      missingOptimizableValue run state.parameterMetadata →
      updateWithRunAux cfg env now beanId machineId run store
        = (store, .ok none)) ∧
    (storeGet store (makeKey beanId machineId) = none →
      getOptimizableParameters machine ≠ [] →
      missingOptimizableValue run (freshBOState cfg machine now).parameterMetadata →
      updateWithRunAux cfg env now beanId machineId run store
        = (storeSet store (makeKey beanId machineId)
            (freshBOState cfg machine now), .ok none)) := by
  constructor
  · intro state hstate hmiss
    simp only [updateWithRunAux, hrated, hm, hstate, updateWithRunCore,
      runToObservation_eq_none_of_missing _ _ _ _ _ hmiss]
  · intro hstate hopt hmiss
    simp only [updateWithRunAux, hrated, hm, hstate,
      initializeOptimizer_eq_of_machine cfg env now beanId machineId store
        machine hm hopt,
      storeGet_storeSet_self, updateWithRunCore,
      runToObservation_eq_none_of_missing _ _ _ _ _ hmiss]

/-- Witness for C2 (amended): a key with an existing state, a rated run
missing the `"g"` value; the call returns the store unchanged. -/
theorem C2_witness :
    updateWithRunAux ⟨5, 2, 100, 1, 1, 1, 100, 0⟩
        ⟨[("m", ⟨[⟨"g", "Grind", .slider, ⟨0, 10, some 1, [], none⟩⟩]⟩)]⟩
        7 "b" "m" ⟨some 5, []⟩
        [(makeKey "b" "m", ⟨[], [⟨"g", "Grind", .slider,
          ⟨0, 10, some 1, [], none⟩⟩], ⟨1, 1, 1⟩, 3⟩)]
      = ([(makeKey "b" "m", ⟨[], [⟨"g", "Grind", .slider,
          ⟨0, 10, some 1, [], none⟩⟩], ⟨1, 1, 1⟩, 3⟩)], .ok none) :=
  (C2_missing_value_rejected ⟨5, 2, 100, 1, 1, 1, 100, 0⟩
      ⟨[("m", ⟨[⟨"g", "Grind", .slider, ⟨0, 10, some 1, [], none⟩⟩]⟩)]⟩
      7 "b" "m" ⟨some 5, []⟩ _ ⟨[⟨"g", "Grind", .slider,
        ⟨0, 10, some 1, [], none⟩⟩]⟩ 5 rfl rfl).1
    ⟨[], [⟨"g", "Grind", .slider, ⟨0, 10, some 1, [], none⟩⟩], ⟨1, 1, 1⟩, 3⟩
    rfl (by decide)

theorem findMaxUCB_scan (sqrtFn : ℚ → ℚ) (means variances : List ℚ)
    (exploration : ℚ) :
    ∀ n, 0 < n → ∃ i,
      ((List.range n).foldl
        (fun acc i =>
          let u := ucb sqrtFn (means.getD i 0) (variances.getD i 0) exploration
          if acc.1 < (u : WithBot ℚ) then ((u : WithBot ℚ), i) else acc)
        ((⊥ : WithBot ℚ), 0))
        = ((ucbScore sqrtFn means variances exploration i : WithBot ℚ), i) ∧
      i < n ∧
      (∀ j, j < n → ucbScore sqrtFn means variances exploration j ≤
        ucbScore sqrtFn means variances exploration i) ∧
      (∀ j, j < i → ucbScore sqrtFn means variances exploration j <
        ucbScore sqrtFn means variances exploration i) := by
  intro n
  induction n with
  | zero => intro h; exact absurd h (by decide)
  | succ n ih =>
    intro _
    rcases Nat.eq_zero_or_pos n with hn | hn
    · subst hn
      refine ⟨0, ?_, Nat.zero_lt_one, ?_, ?_⟩
      · simp [show List.range 1 = [0] from rfl, ucbScore, WithBot.bot_lt_coe]
      · intro j hj
        rw [Nat.lt_one_iff.mp hj]
      · intro j hj; cases hj
    · obtain ⟨i, hfold, hlt, hmax, hstrict⟩ := ih hn
      rw [List.range_succ, List.foldl_append, List.foldl_cons, List.foldl_nil,
        hfold]
      by_cases hcmp : ucbScore sqrtFn means variances exploration i <
          ucbScore sqrtFn means variances exploration n
      · refine ⟨n, ?_, Nat.lt_succ_self n, ?_, ?_⟩
        · simp only [ucbScore, ucb] at hcmp ⊢
          rw [if_pos (by exact_mod_cast hcmp)]
        · intro j hj
          rcases Nat.lt_succ_iff_lt_or_eq.mp hj with h | h
          · exact le_of_lt (lt_of_le_of_lt (hmax j h) hcmp)
          · exact h ▸ le_refl _
        · intro j hj
          exact lt_of_le_of_lt (hmax j hj) hcmp
      · refine ⟨i, ?_, Nat.lt_succ_of_lt hlt, ?_, hstrict⟩
        · simp only [ucbScore, ucb] at hcmp ⊢
          rw [if_neg (by exact_mod_cast hcmp)]
        · intro j hj
          rcases Nat.lt_succ_iff_lt_or_eq.mp hj with h | h
          · exact hmax j h
          · exact h ▸ le_of_not_lt hcmp

/-- C5: on non-empty parallel arrays of means and variances, `findMaxUCB`
returns the index maximizing `means[i] + β·√(max 0 variances[i])` (the UCB
score, with `√` the `sqrtFn` used by the scan); among several maximizers
the lowest index wins, because only a strict improvement moves the scan;
on empty arrays it fails as invalid input. -/
theorem C5_findMaxUCB_argmax (sqrtFn : ℚ → ℚ) (means variances : List ℚ)
    (exploration : ℚ) :
    (means = [] →
      findMaxUCB sqrtFn means variances exploration = .error .invalidInput) ∧
    (means ≠ [] → ∃ i,
      findMaxUCB sqrtFn means variances exploration = .ok i ∧
      i < means.length ∧
      (∀ j, j < means.length → ucbScore sqrtFn means variances exploration j ≤
        ucbScore sqrtFn means variances exploration i) ∧
      (∀ j, j < i → ucbScore sqrtFn means variances exploration j <
        ucbScore sqrtFn means variances exploration i)) := by
  constructor
  · intro h
    simp [findMaxUCB, h]
  · intro h
    have hn : 0 < means.length := List.length_pos.mpr h
    obtain ⟨i, hfold, hlt, hmax, hstrict⟩ :=
      findMaxUCB_scan sqrtFn means variances exploration means.length hn
    refine ⟨i, ?_, hlt, hmax, hstrict⟩
    simp only [findMaxUCB, if_neg (Nat.pos_iff_ne_zero.mp hn), hfold]

/-- Witness for C5: the non-empty instance at means `[0, 1]`,
variances `[0, 0]`, exploration 2. -/
theorem C5_witness :
    ∃ i, findMaxUCB (fun q => q) [0, 1] [0, 0] 2 = .ok i ∧
      i < ([0, 1] : List ℚ).length ∧
      (∀ j, j < ([0, 1] : List ℚ).length →
        ucbScore (fun q => q) [0, 1] [0, 0] 2 j ≤
          ucbScore (fun q => q) [0, 1] [0, 0] 2 i) ∧
      (∀ j, j < i → ucbScore (fun q => q) [0, 1] [0, 0] 2 j <
        ucbScore (fun q => q) [0, 1] [0, 0] 2 i) :=
  (C5_findMaxUCB_argmax (fun q => q) [0, 1] [0, 0] 2).2 (by decide)

theorem foldl_min_le_init (xs : List ℚ) (a : ℚ) : xs.foldl min a ≤ a := by
  induction xs generalizing a with
  | nil => exact le_refl a
  | cons y xs ih =>
    exact le_trans (ih (min a y)) (min_le_left a y)

theorem foldl_min_le_mem (xs : List ℚ) (a x : ℚ) (h : x ∈ xs) :
    xs.foldl min a ≤ x := by
  induction xs generalizing a with
  | nil => cases h
  | cons y xs ih =>
    rcases List.mem_cons.mp h with h1 | h1
    · subst h1
      exact le_trans (foldl_min_le_init xs (min a x)) (min_le_right a x)
    · exact ih (min a y) h1

theorem init_le_foldl_max (xs : List ℚ) (a : ℚ) : a ≤ xs.foldl max a := by
  induction xs generalizing a with
  | nil => exact le_refl a
  | cons y xs ih =>
    exact le_trans (le_max_left a y) (ih (max a y))

theorem mem_le_foldl_max (xs : List ℚ) (a x : ℚ) (h : x ∈ xs) :
    x ≤ xs.foldl max a := by
  induction xs generalizing a with
  | nil => cases h
  | cons y xs ih =>
    rcases List.mem_cons.mp h with h1 | h1
    · subst h1
      exact le_trans (le_max_right a x) (init_le_foldl_max xs (max a x))
    · exact ih (max a y) h1

theorem listMin_le_of_mem {l : List ℚ} {x : ℚ} (h : x ∈ l) : listMin l ≤ x := by
  cases l with
  | nil => cases h
  | cons y xs =>
    rcases List.mem_cons.mp h with h1 | h1
    · subst h1; exact foldl_min_le_init xs x
    · exact foldl_min_le_mem xs y x h1

theorem le_listMax_of_mem {l : List ℚ} {x : ℚ} (h : x ∈ l) : x ≤ listMax l := by
  cases l with
  | nil => cases h
  | cons y xs =>
    rcases List.mem_cons.mp h with h1 | h1
    · subst h1; exact init_le_foldl_max xs x
    · exact mem_le_foldl_max xs y x h1

theorem listMin_append_singleton (y : ℚ) (xs : List ℚ) (q : ℚ) :
    listMin ((y :: xs) ++ [q]) = min (listMin (y :: xs)) q := by
  simp [listMin, List.foldl_append]

theorem listMax_append_singleton (y : ℚ) (xs : List ℚ) (q : ℚ) :
    listMax ((y :: xs) ++ [q]) = max (listMax (y :: xs)) q := by
  simp [listMax, List.foldl_append]

/-- `Math.round` moves a value by at most one half. -/
theorem jsRound_abs_le (x : ℚ) : |(jsRound x : ℚ) - x| ≤ 1/2 := by
  rw [abs_sub_le_iff]
  constructor
  · have h := Int.floor_le (x + 1/2)
    rw [jsRound]
    linarith
  · have h := Int.sub_one_lt_floor (x + 1/2)
    rw [jsRound]
    linarith

/-- `Math.round` fixes the integers. -/
theorem jsRound_intCast (k : ℤ) : jsRound (k : ℚ) = k := by
  rw [jsRound, add_comm, Int.floor_add_int]
  norm_num

/-- Clamping into an interval containing `q` cannot move a value away
from `q`. -/
theorem clamp_abs_le (mn mx q v : ℚ) (h1 : mn ≤ q) (h2 : q ≤ mx) :
    |max mn (min mx v) - q| ≤ |v - q| := by
  rcases le_total v mn with hv | hv
  · have hvx : v ≤ mx := le_trans hv (le_trans h1 h2)
    rw [min_eq_right hvx, max_eq_left hv]
    rw [abs_sub_comm mn q, abs_sub_comm v q]
    rw [abs_of_nonneg (by linarith), abs_of_nonneg (by linarith)]
    linarith
  · rcases le_total v mx with hv2 | hv2
    · rw [min_eq_right hv2, max_eq_right hv]
    · rw [min_eq_left hv2, max_eq_right (le_trans h1 h2)]
      rw [abs_of_nonneg (by linarith), abs_of_nonneg (by linarith)]
      linarith

theorem findIdx?_mem_spec (s : String) :
    ∀ (options : List String) (start : Nat), s ∈ options →
      ∃ j, options.findIdx? (fun o => o == s) start = some (start + j) ∧
        j < options.length ∧ options.getD j "" = s := by
  intro options
  induction options with
  | nil => intro start h; cases h
  | cons o rest ih =>
    intro start h
    by_cases ho : o = s
    · refine ⟨0, ?_, Nat.succ_pos _, by simp [ho]⟩
      rw [List.findIdx?_cons, if_pos (by simp [ho])]
      simp
    · have hs : s ∈ rest := by
        rcases List.mem_cons.mp h with h1 | h1
        · exact absurd h1.symm ho
        · exact h1
      obtain ⟨j, hfind, hj, hget⟩ := ih (start + 1) hs
      refine ⟨j + 1, ?_, Nat.succ_lt_succ hj, by simpa using hget⟩
      rw [List.findIdx?_cons, if_neg (by simp [ho]), hfind]
      congr 1
      omega

theorem slider_roundtrip (padding : ℚ) (param : Param) (state : BOState)
    (q : ℚ) (htype : param.type = .slider)
    (hlt : param.config.min < param.config.max)
    (hstep : 0 < jsOrQ param.config.step 1)
    (hq1 : param.config.min ≤ q) (hq2 : q ≤ param.config.max) :
    ∃ r, denormalizeParameter padding
        (normalizeParameter padding (.num q) param state) param state
        = .num r ∧
      |r - q| ≤ jsOrQ param.config.step 1 / 2 ∧
      (∀ k : ℤ, q = (k : ℚ) * jsOrQ param.config.step 1 → r = q) := by
  have hne : param.config.max - param.config.min ≠ 0 :=
    sub_ne_zero.mpr (ne_of_gt hlt)
  have hnorm : normalizeParameter padding (.num q) param state
      = (q - param.config.min) / (param.config.max - param.config.min) := by
    simp [normalizeParameter, htype, toNum]
  have hval : param.config.min +
      (q - param.config.min) / (param.config.max - param.config.min) *
        (param.config.max - param.config.min) = q := by
    field_simp
  refine ⟨max param.config.min (min param.config.max
    ((jsRound (q / jsOrQ param.config.step 1) : ℚ) * jsOrQ param.config.step 1)),
    ?_, ?_, ?_⟩
  · rw [hnorm]
    simp only [denormalizeParameter, htype]
    rw [hval]
  · have h1 := jsRound_abs_le (q / jsOrQ param.config.step 1)
    have h2 : (jsRound (q / jsOrQ param.config.step 1) : ℚ) *
        jsOrQ param.config.step 1 - q =
        ((jsRound (q / jsOrQ param.config.step 1) : ℚ) -
          q / jsOrQ param.config.step 1) * jsOrQ param.config.step 1 := by
      field_simp
    have h3 : |(jsRound (q / jsOrQ param.config.step 1) : ℚ) *
        jsOrQ param.config.step 1 - q| ≤ jsOrQ param.config.step 1 / 2 := by
      rw [h2, abs_mul, abs_of_pos hstep]
      calc |(jsRound (q / jsOrQ param.config.step 1) : ℚ) -
          q / jsOrQ param.config.step 1| * jsOrQ param.config.step 1
          ≤ (1/2) * jsOrQ param.config.step 1 := by
            exact mul_le_mul_of_nonneg_right h1 (le_of_lt hstep)
        _ = jsOrQ param.config.step 1 / 2 := by ring
    exact le_trans (clamp_abs_le _ _ q _ hq1 hq2) h3
  · intro k hk
    have hq : q / jsOrQ param.config.step 1 = (k : ℚ) := by
      rw [hk, mul_div_cancel_right₀ _ (ne_of_gt hstep)]
    rw [hq, jsRound_intCast, ← hk, min_eq_right hq2, max_eq_right hq1]

theorem dropdown_roundtrip (padding : ℚ) (param : Param) (state : BOState)
    (s : String) (htype : param.type = .dropdown)
    (hmem : s ∈ param.config.options) :
    denormalizeParameter padding
      (normalizeParameter padding (.str s) param state) param state
      = .str s := by
  obtain ⟨j, hfind, hj, hget⟩ :=
    findIdx?_mem_spec s param.config.options 0 hmem
  rw [Nat.zero_add] at hfind
  have hlen0 : param.config.options.length ≠ 0 := Nat.pos_iff_ne_zero.mp
    (lt_of_le_of_lt (Nat.zero_le j) hj)
  have hidx : jsIndexOf param.config.options (.str s) = (j : ℤ) := by
    simp [jsIndexOf, hfind]
  have hne : jsIndexOf param.config.options (.str s) ≠ -1 := by
    rw [hidx]; omega
  by_cases hlen : param.config.options.length = 1
  · have hnorm : normalizeParameter padding (.str s) param state = 0 := by
      simp only [normalizeParameter, htype]
      rw [if_neg hne, if_pos hlen]
    rw [hnorm]
    simp only [denormalizeParameter, htype]
    rw [if_neg hlen0]
    have hj0 : j = 0 := by omega
    have hround : jsRound (0 * ((param.config.options.length : ℚ) - 1)) = 0 := by
      norm_num [jsRound]
    rw [hround]
    have : (max (0 : ℤ) (min 0 ((param.config.options.length : ℤ) - 1))).toNat
        = 0 := by
      omega
    rw [this]
    rw [hj0] at hget
    rw [hget]
  · have hlen2 : 2 ≤ param.config.options.length := by omega
    have hcast : ((param.config.options.length : ℚ) - 1) ≠ 0 := by
      have : (2 : ℚ) ≤ (param.config.options.length : ℚ) := by
        exact_mod_cast hlen2
      linarith
    have hnorm : normalizeParameter padding (.str s) param state
        = (j : ℚ) / ((param.config.options.length : ℚ) - 1) := by
      simp only [normalizeParameter, htype]
      rw [if_neg hne, if_neg hlen, hidx]
      norm_num
    rw [hnorm]
    simp only [denormalizeParameter, htype]
    rw [if_neg hlen0]
    have hcancel : (j : ℚ) / ((param.config.options.length : ℚ) - 1) *
        ((param.config.options.length : ℚ) - 1) = ((j : ℤ) : ℚ) := by
      rw [div_mul_cancel₀ _ hcast]
      norm_num
    rw [hcancel, jsRound_intCast]
    have hclamp : (max (0 : ℤ) (min ((j : ℤ)) ((param.config.options.length : ℤ) - 1))).toNat = j := by
      omega
    rw [hclamp, hget]

theorem number_roundtrip (padding : ℚ) (param : Param) (state : BOState)
    (q : ℚ) (htype : param.type = .number) (hpad : 0 ≤ padding)
    (hdistinct : ∃ a ∈ collectRawValues state param.id,
      ∃ b ∈ collectRawValues state param.id, a ≠ b)
    (hlo : listMin (collectRawValues state param.id) ≤ q)
    (hhi : q ≤ listMax (collectRawValues state param.id)) :
    ∃ r, denormalizeParameter padding
        (normalizeParameter padding (.num q) param state) param state
        = .num r ∧
      |r - q| ≤ 1/200 := by
  obtain ⟨a, ha, b, hb, hab⟩ := hdistinct
  obtain ⟨y, xs, hyxs⟩ : ∃ y xs, collectRawValues state param.id = y :: xs := by
    cases hval : collectRawValues state param.id with
    | nil => rw [hval] at ha; cases ha
    | cons y xs => exact ⟨y, xs, rfl⟩
  have hltrange : listMin (collectRawValues state param.id) <
      listMax (collectRawValues state param.id) := by
    have h1 : listMin (collectRawValues state param.id) ≤ min a b :=
      le_min (listMin_le_of_mem ha) (listMin_le_of_mem hb)
    have h2 : max a b ≤ listMax (collectRawValues state param.id) :=
      max_le (le_listMax_of_mem ha) (le_listMax_of_mem hb)
    exact lt_of_le_of_lt h1 (lt_of_lt_of_le (min_lt_max.mpr hab) h2)
  have hminapp : listMin (collectRawValues state param.id ++ [q])
      = listMin (collectRawValues state param.id) := by
    rw [hyxs, listMin_append_singleton, ← hyxs, min_eq_left hlo]
  have hmaxapp : listMax (collectRawValues state param.id ++ [q])
      = listMax (collectRawValues state param.id) := by
    rw [hyxs, listMax_append_singleton, ← hyxs, max_eq_left hhi]
  have henv : numberEnvelope padding (collectRawValues state param.id ++ [q])
      = numberEnvelope padding (collectRawValues state param.id) := by
    simp only [numberEnvelope, hminapp, hmaxapp]
  have henveq : numberEnvelope padding (collectRawValues state param.id)
      = (listMin (collectRawValues state param.id) -
          (listMax (collectRawValues state param.id) -
            listMin (collectRawValues state param.id)) * padding,
        listMax (collectRawValues state param.id) +
          (listMax (collectRawValues state param.id) -
            listMin (collectRawValues state param.id)) * padding) := by
    simp only [numberEnvelope]
    rw [if_pos (by linarith)]
  have hD : (numberEnvelope padding (collectRawValues state param.id)).2 -
      (numberEnvelope padding (collectRawValues state param.id)).1 ≠ 0 := by
    rw [henveq]
    simp only
    nlinarith
  have hnorm : normalizeParameter padding (.num q) param state
      = (q - (numberEnvelope padding (collectRawValues state param.id)).1) /
        ((numberEnvelope padding (collectRawValues state param.id)).2 -
          (numberEnvelope padding (collectRawValues state param.id)).1) := by
    simp only [normalizeParameter, htype, toNum]
    rw [if_pos (by simp), henv]
  have hvalue : (numberEnvelope padding (collectRawValues state param.id)).1 +
      (q - (numberEnvelope padding (collectRawValues state param.id)).1) /
        ((numberEnvelope padding (collectRawValues state param.id)).2 -
          (numberEnvelope padding (collectRawValues state param.id)).1) *
        ((numberEnvelope padding (collectRawValues state param.id)).2 -
          (numberEnvelope padding (collectRawValues state param.id)).1) = q := by
    rw [div_mul_cancel₀ _ hD]
    ring
  refine ⟨(jsRound (q * 100) : ℚ) / 100, ?_, ?_⟩
  · rw [hnorm]
    simp only [denormalizeParameter, htype]
    rw [if_pos (by rw [hyxs]; simp), hvalue]
  · have h1 := jsRound_abs_le (q * 100)
    have : (jsRound (q * 100) : ℚ) / 100 - q
        = ((jsRound (q * 100) : ℚ) - q * 100) / 100 := by ring
    rw [this, abs_div, abs_of_pos (by norm_num : (0:ℚ) < 100)]
    linarith

/-- The unbounded-continuous parameter of the C3 counterexample. -/
def c3Param : Param := ⟨"t", "Temp", .number, ⟨0, 0, none, [], none⟩⟩

/-- A state holding two distinct historical raw values 0 and 1 for `"t"`. -/
def c3State : BOState :=
  ⟨[⟨[0], [("t", .num 0)], 0⟩, ⟨[1], [("t", .num 1)], 0⟩],
    [c3Param], ⟨1, 1, 1⟩, 0⟩

/-- Counterexample to C3 as stated: for the unbounded-continuous parameter
`"t"` with two distinct historical values {0, 1} and the default padding
0.2, the value 100 encodes against the envelope of {0, 1, 100} but decodes
against the envelope of {0, 1} alone, yielding 1 — off from 100 by far
more than two decimal places. -/
theorem C3_counterexample :
    (∃ a ∈ collectRawValues c3State "t",
      ∃ b ∈ collectRawValues c3State "t", a ≠ b) ∧
    denormalizeParameter defaultBOConfig.numberParamPadding
      (normalizeParameter defaultBOConfig.numberParamPadding
        (.num 100) c3Param c3State) c3Param c3State = .num 1 ∧
    ¬(|(1 : ℚ) - 100| ≤ 1/200) := by
  have hhist : collectRawValues c3State "t" = [0, 1] := rfl
  refine ⟨⟨0, by rw [hhist]; simp, 1, by rw [hhist]; simp, by norm_num⟩, ?_,
    by rw [abs_of_nonpos (by norm_num)]; norm_num⟩
  have hn : normalizeParameter defaultBOConfig.numberParamPadding
      (.num 100) c3Param c3State = 6/7 := by
    simp only [normalizeParameter, c3Param, toNum, hhist, defaultBOConfig]
    norm_num [numberEnvelope, listMin, listMax, min_def, max_def]
  rw [hn]
  simp only [denormalizeParameter, c3Param, hhist, defaultBOConfig]
  norm_num [numberEnvelope, listMin, listMax, min_def, max_def, jsRound]

/-- C3 (amended): round-trips of `_denormalizeParameter` after
`_normalizeParameter`.  Bounded-continuous: any in-range value comes back
within `step/2` (the snap to the nearest multiple of `step`, then clamped),
and exactly when it is an in-range multiple of `step`.  Ordinal: a value
among the options comes back exactly.  Unbounded-continuous: with at least
two distinct historical raw values, a value *between the historical
minimum and maximum* comes back within half of one hundredth (two decimal
places); outside the historical range the encode and decode envelopes
differ and the round-trip fails (see the counterexample). -/
theorem C3_encode_decode_roundtrip (padding : ℚ) (param : Param)
    (state : BOState) :
    (∀ q : ℚ, param.type = .slider →
      param.config.min < param.config.max →
      0 < jsOrQ param.config.step 1 →
      param.config.min ≤ q → q ≤ param.config.max →
      ∃ r, denormalizeParameter padding
          (normalizeParameter padding (.num q) param state) param state
          = .num r ∧
        |r - q| ≤ jsOrQ param.config.step 1 / 2 ∧
        (∀ k : ℤ, q = (k : ℚ) * jsOrQ param.config.step 1 → r = q)) ∧
    (∀ s : String, param.type = .dropdown → s ∈ param.config.options →
      denormalizeParameter padding
        (normalizeParameter padding (.str s) param state) param state
        = .str s) ∧
    (∀ q : ℚ, param.type = .number → 0 ≤ padding →
      (∃ a ∈ collectRawValues state param.id,
        ∃ b ∈ collectRawValues state param.id, a ≠ b) →
      listMin (collectRawValues state param.id) ≤ q →
      q ≤ listMax (collectRawValues state param.id) →
      ∃ r, denormalizeParameter padding
          (normalizeParameter padding (.num q) param state) param state
          = .num r ∧
        |r - q| ≤ 1/200) :=
  ⟨fun q h1 h2 h3 h4 h5 => slider_roundtrip padding param state q h1 h2 h3 h4 h5,
    fun s h1 h2 => dropdown_roundtrip padding param state s h1 h2,
    fun q h1 hpad h2 h3 h4 =>
      number_roundtrip padding param state q h1 hpad h2 h3 h4⟩

/-- Witness for C3 (amended): the ordinal round-trip at option `"Medium"`
of a three-option dropdown. -/
theorem C3_witness :
    denormalizeParameter 0
      (normalizeParameter 0 (.str "Medium")
        ⟨"g", "G", .dropdown, ⟨0, 0, none, ["Fine", "Medium", "Coarse"], none⟩⟩
        cexState)
      ⟨"g", "G", .dropdown, ⟨0, 0, none, ["Fine", "Medium", "Coarse"], none⟩⟩
      cexState = .str "Medium" :=
  (C3_encode_decode_roundtrip 0
      ⟨"g", "G", .dropdown, ⟨0, 0, none, ["Fine", "Medium", "Coarse"], none⟩⟩
      cexState).2.1 "Medium" rfl (by decide)

/-- The premises of C8 for one machine parameter: bounded-continuous values
are numbers within their declared `[min, max]` (with `min < max`), ordinal
values are strings among their options, unbounded-continuous values are
numbers; free-text parameters are unconstrained. -/
def paramValueOk (run : BrewRun) (p : Param) : Bool :=
  match p.type, run.parameterValues.lookup p.id with
  | .slider, some (.num q) =>
    decide (p.config.min ≤ q) && decide (q ≤ p.config.max) &&
      decide (p.config.min < p.config.max)
  | .slider, _ => false
  | .number, some (.num _) => true
  | .number, _ => false
  | .dropdown, some (.str s) => p.config.options.contains s
  | .dropdown, _ => false
  | .text, _ => true

theorem normalizeParameter_mem_unit (padding : ℚ) (run : BrewRun)
    (p : Param) (state : BOState) (value : ParamVal)
    (hpad : 0 ≤ padding) (hok : paramValueOk run p = true)
    (hval : run.parameterValues.lookup p.id = some value) :
    0 ≤ normalizeParameter padding value p state ∧
      normalizeParameter padding value p state ≤ 1 := by
  cases htype : p.type with
  | slider =>
    rw [paramValueOk, htype, hval] at hok
    cases value with
    | str s => simp at hok
    | num q =>
      simp only [decide_eq_true_eq, Bool.and_eq_true] at hok
      obtain ⟨⟨h1, h2⟩, h3⟩ := hok
      simp only [normalizeParameter, htype, toNum]
      constructor
      · exact div_nonneg (by linarith) (by linarith)
      · rw [div_le_one (by linarith)]
        linarith
  | number =>
    simp only [normalizeParameter, htype]
    rw [if_pos (by simp)]
    have hmem : toNum value ∈ collectRawValues state p.id ++ [toNum value] :=
      List.mem_append_right _ (List.mem_singleton.mpr rfl)
    have hlo : listMin (collectRawValues state p.id ++ [toNum value])
        ≤ toNum value := listMin_le_of_mem hmem
    have hhi : toNum value
        ≤ listMax (collectRawValues state p.id ++ [toNum value]) :=
      le_listMax_of_mem hmem
    simp only [numberEnvelope]
    by_cases hr : 0 < listMax (collectRawValues state p.id ++ [toNum value]) -
        listMin (collectRawValues state p.id ++ [toNum value])
    · rw [if_pos hr]
      simp only
      constructor
      · apply div_nonneg (by nlinarith) (by nlinarith)
      · rw [div_le_one (by nlinarith)]
        nlinarith
    · rw [if_neg hr]
      simp only
      have heq : listMax (collectRawValues state p.id ++ [toNum value])
          = listMin (collectRawValues state p.id ++ [toNum value]) := by
        linarith
      have hv : toNum value
          = listMin (collectRawValues state p.id ++ [toNum value]) := by
        rw [heq] at hhi
        linarith
      rw [heq, ← hv]
      constructor
      · apply div_nonneg (by linarith) (by linarith)
      · rw [div_le_one (by linarith)]
        linarith
  | dropdown =>
    rw [paramValueOk, htype, hval] at hok
    cases value with
    | num q => simp at hok
    | str s =>
      have hmem : s ∈ p.config.options := by
        simpa using hok
      obtain ⟨j, hfind, hj, _⟩ := findIdx?_mem_spec s p.config.options 0 hmem
      rw [Nat.zero_add] at hfind
      have hidx : jsIndexOf p.config.options (.str s) = (j : ℤ) := by
        simp [jsIndexOf, hfind]
      simp only [normalizeParameter, htype, hidx]
      rw [if_neg (by omega)]
      by_cases hlen : p.config.options.length = 1
      · rw [if_pos hlen]
        norm_num
      · rw [if_neg hlen]
        have hlen2 : 2 ≤ p.config.options.length := by omega
        have hc : (1 : ℚ) ≤ (p.config.options.length : ℚ) - 1 := by
          have : (2 : ℚ) ≤ (p.config.options.length : ℚ) := by exact_mod_cast hlen2
          linarith
        constructor
        · push_cast
          apply div_nonneg (by positivity) (by linarith)
        · rw [div_le_one (by linarith)]
          have : (j : ℚ) ≤ (p.config.options.length : ℚ) - 1 := by
            have : j + 1 ≤ p.config.options.length := hj
            have hcast : ((j : ℚ) + 1) ≤ (p.config.options.length : ℚ) := by
              exact_mod_cast this
            linarith
          push_cast
          linarith
  | text =>
    simp only [normalizeParameter, htype]
    norm_num

theorem buildObsParams_spec (padding : ℚ) (run : BrewRun) (machine : Machine)
    (state : BOState)
    (hok : ∀ p ∈ machine.parameters, paramValueOk run p = true)
    (hpad : 0 ≤ padding) :
    ∀ (metadata : List Param) (pr : List ℚ × List (String × ParamVal)),
      buildObsParams padding run machine state metadata = some pr →
      pr.1.length = metadata.length ∧ ∀ x ∈ pr.1, 0 ≤ x ∧ x ≤ 1 := by
  intro metadata
  induction metadata with
  | nil =>
    intro pr h
    simp only [buildObsParams, Option.some_inj] at h
    rw [← h]
    exact ⟨rfl, fun x hx => absurd hx (List.not_mem_nil x)⟩
  | cons pm rest ih =>
    intro pr h
    simp only [buildObsParams] at h
    cases hval : run.parameterValues.lookup pm.id with
    | none => rw [hval] at h; cases h
    | some value =>
      rw [hval] at h
      cases hfind : machine.parameters.find? (fun p => p.id == pm.id) with
      | none => rw [hfind] at h; cases h
      | some param =>
        rw [hfind] at h
        cases hrest : buildObsParams padding run machine state rest with
        | none => rw [hrest] at h; cases h
        | some pr2 =>
          rw [hrest, Option.some_inj] at h
          obtain ⟨hlen, hmem⟩ := ih pr2 hrest
          have hparam : param ∈ machine.parameters :=
            List.mem_of_find?_eq_some hfind
          have hpid : param.id = pm.id := by
            have := List.find?_some hfind
            simpa using this
          have hnorm := normalizeParameter_mem_unit padding run param state
            value hpad (hok param hparam) (by rw [hpid]; exact hval)
          rw [← h]
          refine ⟨by simp [hlen], ?_⟩
          intro x hx
          rcases List.mem_cons.mp hx with h1 | h1
          · rw [h1]; exact hnorm
          · exact hmem x h1

/-- C8: every observation successfully stored from a run whose
bounded-continuous values are numbers within their declared `[min, max]`
and whose ordinal values appear among their options has a normalized
vector of length `parameterMetadata.length` with every component in
`[0, 1]`; in particular the unbounded-continuous encoding lands in
`[0, 1]` because its envelope includes the value being encoded. -/
theorem C8_observation_vector_in_unit_cube (padding : ℚ) (run : BrewRun)
    (machine : Machine) (metadata : List Param) (state : BOState) (obs : Obs)
    (hpad : 0 ≤ padding)
    (hok : ∀ p ∈ machine.parameters, paramValueOk run p = true)
    (hconv : runToObservation padding run machine metadata state = some obs) :
    obs.parameters.length = metadata.length ∧
      ∀ x ∈ obs.parameters, 0 ≤ x ∧ x ≤ 1 := by
  simp only [runToObservation] at hconv
  cases hbuild : buildObsParams padding run machine state metadata with
  | none => rw [hbuild] at hconv; cases hconv
  | some pr =>
    rw [hbuild, Option.some_inj] at hconv
    obtain ⟨hlen, hmem⟩ :=
      buildObsParams_spec padding run machine state hok hpad metadata pr hbuild
    rw [← hconv]
    exact ⟨hlen, hmem⟩

/-- Witness for C8: one slider parameter at value 5 in `[0, 10]`. -/
theorem C8_witness :
    (Obs.mk [(5 - 0) / ((10 : ℚ) - 0)] [("g", .num 5)]
        ((5 - 1) / 9)).parameters.length
      = [Param.mk "g" "Grind" .slider ⟨0, 10, some 1, [], none⟩].length ∧
    ∀ x ∈ (Obs.mk [(5 - 0) / ((10 : ℚ) - 0)] [("g", .num 5)]
        ((5 - 1) / 9)).parameters, 0 ≤ x ∧ x ≤ 1 :=
  C8_observation_vector_in_unit_cube 0
    ⟨some 5, [("g", .num 5)]⟩
    ⟨[⟨"g", "Grind", .slider, ⟨0, 10, some 1, [], none⟩⟩]⟩
    [⟨"g", "Grind", .slider, ⟨0, 10, some 1, [], none⟩⟩]
    cexState
    ⟨[(5 - 0) / ((10 : ℚ) - 0)], [("g", .num 5)], ((5 - 1) / 9)⟩
    (le_refl 0) (by decide) rfl

/-- One capped append: if the retained list is the `m`-bounded suffix of the
log, pushing one more observation and applying the
`slice(-maxObservations)` tail-cap yields the `m`-bounded suffix of the
extended log. -/
theorem capped_append (M : ℤ) (hM : 0 < M) (log s : List Obs) (o : Obs)
    (hs : s = log.drop (log.length - M.toNat)) :
    (if M < ((s ++ [o]).length : ℤ) then jsSliceOne (s ++ [o]) (-M)
      else s ++ [o])
      = (log ++ [o]).drop ((log ++ [o]).length - M.toNat) := by
  have hslen : s.length = log.length - (log.length - M.toNat) := by
    rw [hs, List.length_drop]
  by_cases h : M < ((s ++ [o]).length : ℤ)
  · rw [if_pos h, jsSliceOne, if_neg (by omega)]
    have hsm : s.length = M.toNat := by
      simp only [List.length_append, List.length_singleton] at h
      omega
    have hmn : M.toNat ≤ log.length := by omega
    have hidx : (((s ++ [o]).length : ℤ) + -M).toNat
        = s.length + 1 - M.toNat := by
      simp only [List.length_append, List.length_singleton]
      omega
    rw [hidx]
    have hdrop1 : s.length + 1 - M.toNat = 1 := by omega
    rw [hdrop1]
    have h3 : (log ++ [o]).drop (log.length - M.toNat) = s ++ [o] := by
      rw [List.drop_append_of_le_length (by omega), ← hs]
    have h4 : (log ++ [o]).length - M.toNat = (log.length - M.toNat) + 1 := by
      simp only [List.length_append, List.length_singleton]
      omega
    rw [h4, ← List.drop_drop, h3]
  · rw [if_neg h]
    have hlt : log.length < M.toNat := by
      simp only [List.length_append, List.length_singleton] at h
      omega
    have hs0 : s = log := by
      rw [hs]
      have : log.length - M.toNat = 0 := by omega
      rw [this, List.drop_zero]
    rw [hs0]
    have : (log ++ [o]).length - M.toNat = 0 := by
      simp only [List.length_append, List.length_singleton]
      omega
    rw [this, List.drop_zero]

/-- Invariant tying the stored state at one key to the log of observations
appended so far: either no record exists yet and nothing was appended, or
the record's observation list is the `maxObservations`-bounded suffix of
the log. -/
def keyInv (m : Nat) (key : String) (store : Store) (log : List Obs) : Prop :=
  (storeGet store key = none ∧ log = []) ∨
  (∃ state, storeGet store key = some state ∧
    state.observations = log.drop (log.length - m))

theorem updateWithRunCore_inv (cfg : BOConfig) (now : ℚ) (key : String)
    (machine : Machine) (run : BrewRun) (state : BOState) (store : Store)
    (log : List Obs) (store1 : Store) (obsOpt : Option Obs)
    (hmax : 0 < cfg.maxObservations)
    (hget : storeGet store key = some state)
    (hobs : state.observations = log.drop (log.length - cfg.maxObservations.toNat))
    (hres : updateWithRunCore cfg now key machine run state store
      = (store1, .ok obsOpt)) :
    keyInv cfg.maxObservations.toNat key store1 (log ++ obsOpt.toList) := by
  rw [updateWithRunCore] at hres
  cases hconv : runToObservation cfg.numberParamPadding run machine
      state.parameterMetadata state with
  | none =>
    rw [hconv] at hres
    simp only [Prod.mk.injEq, Except.ok.injEq] at hres
    obtain ⟨h1, h2⟩ := hres
    subst h1
    subst h2
    refine Or.inr ⟨state, hget, by simpa using hobs⟩
  | some o =>
    rw [hconv] at hres
    simp only [Prod.mk.injEq, Except.ok.injEq] at hres
    obtain ⟨h1, h2⟩ := hres
    subst h1
    subst h2
    refine Or.inr ⟨_, storeGet_storeSet_self _ _ _, ?_⟩
    simp only [Option.toList_some]
    exact capped_append cfg.maxObservations hmax log state.observations o hobs

theorem updateWithRunAux_inv (cfg : BOConfig) (env : Env) (now : ℚ)
    (beanId machineId : String) (run : BrewRun) (store : Store)
    (log : List Obs) (store1 : Store) (obsOpt : Option Obs)
    (hmax : 0 < cfg.maxObservations)
    (hinv : keyInv cfg.maxObservations.toNat (makeKey beanId machineId) store log)
    (hres : updateWithRunAux cfg env now beanId machineId run store
      = (store1, .ok obsOpt)) :
    keyInv cfg.maxObservations.toNat (makeKey beanId machineId) store1
      (log ++ obsOpt.toList) := by
  rw [updateWithRunAux] at hres
  cases hrating : run.rating with
  | none =>
    rw [hrating] at hres
    simp only [Prod.mk.injEq, Except.ok.injEq] at hres
    obtain ⟨h1, h2⟩ := hres
    subst h1; subst h2
    simpa using hinv
  | some r =>
    rw [hrating] at hres
    cases hm : getMachineById env machineId with
    | none =>
      rw [hm] at hres
      simp only [Prod.mk.injEq, Except.ok.injEq] at hres
      obtain ⟨h1, h2⟩ := hres
      subst h1; subst h2
      simpa using hinv
    | some machine =>
      rw [hm] at hres
      dsimp only at hres
      cases hget : storeGet store (makeKey beanId machineId) with
      | some state =>
        rw [hget] at hres
        have hobs : state.observations
            = log.drop (log.length - cfg.maxObservations.toNat) := by
          rcases hinv with ⟨hnone, _⟩ | ⟨state2, hsome, hobs2⟩
          · rw [hget] at hnone; cases hnone
          · rw [hget] at hsome
            cases hsome
            exact hobs2
        exact updateWithRunCore_inv cfg now _ machine run state store log
          store1 obsOpt hmax hget hobs hres
      | none =>
        rw [hget] at hres
        have hlog : log = [] := by
          rcases hinv with ⟨_, hl⟩ | ⟨state2, hsome, _⟩
          · exact hl
          · rw [hget] at hsome; cases hsome
        subst hlog
        rw [initializeOptimizer, hm] at hres
        dsimp only at hres
        by_cases hopt : (getOptimizableParameters machine).length = 0
        · rw [if_pos hopt] at hres
          simp only [Prod.mk.injEq, Except.ok.injEq] at hres
          obtain ⟨h1, h2⟩ := hres
          subst h1; subst h2
          simpa using Or.inl ⟨hget, rfl⟩
        · rw [if_neg hopt] at hres
          dsimp only at hres
          rw [storeGet_storeSet_self] at hres
          dsimp only at hres
          refine updateWithRunCore_inv cfg now _ machine run _ _ [] store1
            obsOpt hmax (storeGet_storeSet_self _ _ _) (by simp) hres

theorem ingestAll_inv (cfg : BOConfig) (env : Env)
    (beanId machineId : String) (hmax : 0 < cfg.maxObservations) :
    ∀ (runs : List (BrewRun × ℚ)) (store : Store) (log : List Obs)
      (st : Store) (finalLog : List Obs),
      keyInv cfg.maxObservations.toNat (makeKey beanId machineId) store log →
      ingestAll cfg env beanId machineId runs store log = .ok (st, finalLog) →
      keyInv cfg.maxObservations.toNat (makeKey beanId machineId) st finalLog := by
  intro runs
  induction runs with
  | nil =>
    intro store log st finalLog hinv hres
    simp only [ingestAll, Except.ok.injEq, Prod.mk.injEq] at hres
    obtain ⟨h1, h2⟩ := hres
    subst h1; subst h2
    exact hinv
  | cons rn rest ih =>
    intro store log st finalLog hinv hres
    rw [ingestAll] at hres
    cases hstep : updateWithRunAux cfg env rn.2 beanId machineId rn.1 store with
    | mk store1 res =>
      cases res with
      | error e => rw [hstep] at hres; cases hres
      | ok obsOpt =>
        rw [hstep] at hres
        exact ih store1 (log ++ obsOpt.toList) st finalLog
          (updateWithRunAux_inv cfg env rn.2 beanId machineId rn.1 store log
            store1 obsOpt hmax hinv hstep) hres

/-- C6: over any sequence of `updateWithRun` calls against one
(bean, machine) key, starting with no record for that key and with a
positive `maxObservations`, the stored observation list is exactly the
`maxObservations`-bounded suffix of the log of all appended observations
in insertion order (so when the bound is exceeded, exactly the oldest are
dropped), and in particular its length never exceeds `maxObservations`. -/
theorem C6_tail_cap_suffix (cfg : BOConfig) (env : Env)
    (beanId machineId : String) (runs : List (BrewRun × ℚ)) (store0 : Store)
    (st : Store) (log : List Obs) (state : BOState)
    (hmax : 0 < cfg.maxObservations)
    (h0 : storeGet store0 (makeKey beanId machineId) = none)
    (hrun : ingestAll cfg env beanId machineId runs store0 [] = .ok (st, log))
    (hstate : storeGet st (makeKey beanId machineId) = some state) :
    state.observations = log.drop (log.length - cfg.maxObservations.toNat) ∧
      (state.observations.length : ℤ) ≤ cfg.maxObservations := by
  have hinv := ingestAll_inv cfg env beanId machineId hmax runs store0 [] st
    log (Or.inl ⟨h0, rfl⟩) hrun
  rcases hinv with ⟨hnone, _⟩ | ⟨state2, hsome, hobs⟩
  · rw [hstate] at hnone; cases hnone
  · rw [hstate] at hsome
    cases hsome
    refine ⟨hobs, ?_⟩
    rw [hobs, List.length_drop]
    omega

/-- Fixtures for the C6 witness: one slider machine, one rated run. -/
def c6Obs : Obs := ⟨[(5 - 0) / ((10 : ℚ) - 0)], [("g", .num 5)], (5 - 1) / 9⟩

def c6Meta : List Param := [⟨"g", "Grind", .slider, ⟨0, 10, some 1, [], none⟩⟩]

def c6Cfg : BOConfig := ⟨5, 2, 100, 1, 1, 1, 100, 0⟩

def c6Env : Env := ⟨[("m", ⟨c6Meta⟩)]⟩

/-- Witness for C6: ingesting one rated run from an empty store leaves a
one-observation state, which is the bounded suffix of the one-element
log. -/
theorem C6_witness :
    (BOState.mk [c6Obs] c6Meta ⟨1, 1, 1⟩ 7).observations
        = [c6Obs].drop ([c6Obs].length - c6Cfg.maxObservations.toNat) ∧
      (((BOState.mk [c6Obs] c6Meta ⟨1, 1, 1⟩ 7).observations.length : ℤ))
        ≤ c6Cfg.maxObservations :=
  C6_tail_cap_suffix c6Cfg c6Env "b" "m"
    [(⟨some 5, [("g", ParamVal.num 5)]⟩, 7)] []
    [(makeKey "b" "m", ⟨[c6Obs], c6Meta, ⟨1, 1, 1⟩, 7⟩)] [c6Obs]
    ⟨[c6Obs], c6Meta, ⟨1, 1, 1⟩, 7⟩
    (by decide) rfl rfl rfl

/-- Two configurations that agree on every field the read-side pipeline
consumes at call time (candidate count, exploration factor,
unbounded-envelope padding) and may differ in the kernel fields. -/
def agreeNonKernel (c c' : BOConfig) : Prop :=
  c.numCandidates = c'.numCandidates ∧
  c.explorationFactor = c'.explorationFactor ∧
  c.numberParamPadding = c'.numberParamPadding

/-- C7: the kernel hyperparameters are captured into the BO state at
creation time and later reads use only the captured copy.
(1) `initializeOptimizer` under config `cfg` writes a state carrying
exactly `cfg`'s kernel fields; (2) `suggestParameters` and
`getPredictionCurve` give identical results under any two configs that
agree on the non-kernel fields — so editing the kernel config after a
state exists cannot affect reads of that state; (3) a state created after
a `setConfig` captures the merged (new) kernel values. -/
theorem C7_hyperparameters_captured (expFn sqrtFn : ℚ → ℚ)
    (cfg cfg' : BOConfig) (env : Env) (rng : Nat → ℚ) (now : ℚ)
    (beanId machineId : String) (paramIndex : Nat) (opts : CurveOpts)
    (store : Store) (patch : BOConfigPatch) :
    (∀ store1, initializeOptimizer cfg env now beanId machineId store
        = (store1, .ok true) →
      ∃ state, storeGet store1 (makeKey beanId machineId) = some state ∧
        state.observations = [] ∧
        state.gpHyperparameters
          = ⟨cfg.kernelLengthScale, cfg.kernelOutputScale, cfg.kernelNoise⟩) ∧
    (agreeNonKernel cfg cfg' →
      suggestParameters expFn sqrtFn cfg env rng now beanId machineId store
        = suggestParameters expFn sqrtFn cfg' env rng now beanId machineId store ∧
      getPredictionCurve expFn sqrtFn cfg env beanId machineId paramIndex opts store
        = getPredictionCurve expFn sqrtFn cfg' env beanId machineId paramIndex opts store) ∧
    (∀ store1, initializeOptimizer (setConfig cfg patch) env now beanId
        machineId store = (store1, .ok true) →
      ∃ state, storeGet store1 (makeKey beanId machineId) = some state ∧
        state.gpHyperparameters
          = ⟨(setConfig cfg patch).kernelLengthScale,
              (setConfig cfg patch).kernelOutputScale,
              (setConfig cfg patch).kernelNoise⟩) := by
  refine ⟨?_, ?_, ?_⟩
  · intro store1 hres
    rw [initializeOptimizer] at hres
    cases hm : getMachineById env machineId with
    | none =>
      rw [hm] at hres
      simp at hres
    | some machine =>
      rw [hm] at hres
      dsimp only at hres
      by_cases hopt : (getOptimizableParameters machine).length = 0
      · rw [if_pos hopt] at hres
        simp at hres
      · rw [if_neg hopt] at hres
        simp only [Prod.mk.injEq, Except.ok.injEq] at hres
        obtain ⟨h1, _⟩ := hres
        subst h1
        exact ⟨_, storeGet_storeSet_self _ _ _, rfl, rfl⟩
  · intro hagree
    obtain ⟨h1, h2, h3⟩ := hagree
    constructor
    · simp only [suggestParameters, suggestBody, h1, h2, h3]
    · simp only [getPredictionCurve, h3]
  · intro store1 hres
    rw [initializeOptimizer] at hres
    cases hm : getMachineById env machineId with
    | none =>
      rw [hm] at hres
      simp at hres
    | some machine =>
      rw [hm] at hres
      dsimp only at hres
      by_cases hopt : (getOptimizableParameters machine).length = 0
      · rw [if_pos hopt] at hres
        simp at hres
      · rw [if_neg hopt] at hres
        simp only [Prod.mk.injEq, Except.ok.injEq] at hres
        obtain ⟨h1, _⟩ := hres
        subst h1
        exact ⟨_, storeGet_storeSet_self _ _ _, rfl⟩

/-- Witness for C7: two configs identical except for the kernel fields
give the same suggestion on a one-observation store. -/
theorem C7_witness :
    suggestParameters (fun q => q) (fun q => q) ⟨5, 2, 100, 1, 1, 1, 100, 0⟩
        ⟨[("m", ⟨c6Meta⟩)]⟩ (fun _ => 0) 7 "b" "m"
        [(makeKey "b" "m", ⟨[c6Obs], c6Meta, ⟨1, 1, 1⟩, 7⟩)]
      = suggestParameters (fun q => q) (fun q => q) ⟨5, 2, 100, 9, 9, 9, 100, 0⟩
        ⟨[("m", ⟨c6Meta⟩)]⟩ (fun _ => 0) 7 "b" "m"
        [(makeKey "b" "m", ⟨[c6Obs], c6Meta, ⟨1, 1, 1⟩, 7⟩)] :=
  ((C7_hyperparameters_captured (fun q => q) (fun q => q)
      ⟨5, 2, 100, 1, 1, 1, 100, 0⟩ ⟨5, 2, 100, 9, 9, 9, 100, 0⟩
      ⟨[("m", ⟨c6Meta⟩)]⟩ (fun _ => 0) 7 "b" "m" 0 ⟨none, []⟩
      [(makeKey "b" "m", ⟨[c6Obs], c6Meta, ⟨1, 1, 1⟩, 7⟩)]
      ⟨none, none, none, none, none, none, none, none⟩).2.1
    ⟨rfl, rfl, rfl⟩).1

/-- Counterexample to C1 as stated: with a state and a non-empty
observation list for the key but no machine of that id, the claim demands
`getPredictionCurve` return null; instead the source dereferences
`machine.parameters` on `null` and the `TypeError` propagates to the
caller (there is no `try`/`catch` in `getPredictionCurve`). -/
theorem C1_counterexample :
    (getPredictionCurve (fun q => q) (fun q => q) c6Cfg ⟨[]⟩ "b" "m" 0
      ⟨none, []⟩ [(makeKey "b" "m", ⟨[c6Obs], c6Meta, ⟨1, 1, 1⟩, 7⟩)]).2
      = .error .typeError := rfl

/-- C1 (amended): `suggestParameters` is null-tolerant — it returns null
when the machine or state is missing, when the observation list is empty,
and whenever its try-block pipeline throws; it never propagates an
exception.  `getPredictionCurve` returns null only when the state is
missing or has no observations; a missing machine or an out-of-range
`paramIndex` makes it throw a `TypeError` to the caller instead of
returning null. -/
theorem C1_read_side_error_policy (expFn sqrtFn : ℚ → ℚ) (cfg : BOConfig)
    (env : Env) (rng : Nat → ℚ) (now : ℚ) (beanId machineId : String)
    (paramIndex : Nat) (opts : CurveOpts) (store : Store) :
    (getMachineById env machineId = none →
      (suggestParameters expFn sqrtFn cfg env rng now beanId machineId store).2
        = none) ∧
    (storeGet store (makeKey beanId machineId) = none →
      (suggestParameters expFn sqrtFn cfg env rng now beanId machineId store).2
        = none) ∧
    (∀ state, storeGet store (makeKey beanId machineId) = some state →
      state.observations.length = 0 →
      (suggestParameters expFn sqrtFn cfg env rng now beanId machineId store).2
        = none) ∧
    (∀ machine state e, getMachineById env machineId = some machine →
      storeGet store (makeKey beanId machineId) = some state →
      state.observations.length ≠ 0 →
      suggestBody expFn sqrtFn cfg rng now beanId machineId machine state
        = .error e →
      (suggestParameters expFn sqrtFn cfg env rng now beanId machineId store).2
        = none) ∧
    (storeGet store (makeKey beanId machineId) = none →
      (getPredictionCurve expFn sqrtFn cfg env beanId machineId paramIndex
        opts store).2 = .ok none) ∧
    (∀ state, storeGet store (makeKey beanId machineId) = some state →
      state.observations.length = 0 →
      (getPredictionCurve expFn sqrtFn cfg env beanId machineId paramIndex
        opts store).2 = .ok none) ∧
    (∀ state, storeGet store (makeKey beanId machineId) = some state →
      state.observations.length ≠ 0 →
      getMachineById env machineId = none →
      (getPredictionCurve expFn sqrtFn cfg env beanId machineId paramIndex
        opts store).2 = .error .typeError) ∧
    (∀ state machine, storeGet store (makeKey beanId machineId) = some state →
      state.observations.length ≠ 0 →
      getMachineById env machineId = some machine →
      state.parameterMetadata.get? paramIndex = none →
      (getPredictionCurve expFn sqrtFn cfg env beanId machineId paramIndex
        opts store).2 = .error .typeError) := by
  refine ⟨?_, ?_, ?_, ?_, ?_, ?_, ?_, ?_⟩
  · intro hm
    simp only [suggestParameters, hm]
  · intro hst
    cases hm : getMachineById env machineId with
    | none => simp only [suggestParameters, hm]
    | some machine => simp only [suggestParameters, hm, hst]
  · intro state hst hlen
    cases hm : getMachineById env machineId with
    | none => simp only [suggestParameters, hm]
    | some machine =>
      simp only [suggestParameters, hm, hst, if_pos hlen]
  · intro machine state e hm hst hlen hbody
    simp only [suggestParameters, hm, hst, if_neg hlen, hbody]
  · intro hst
    simp only [getPredictionCurve, hst]
  · intro state hst hlen
    simp only [getPredictionCurve, hst, if_pos hlen]
  · intro state hst hlen hm
    simp only [getPredictionCurve, hst, if_neg hlen, hm]
  · intro state machine hst hlen hm hidx
    simp only [getPredictionCurve, hst, if_neg hlen, hm, hidx]

/-- Witness for C1 (amended): an empty machine repository and an empty
store — `suggestParameters` returns null and `getPredictionCurve` returns
null (no exception), both because nothing is stored for the key. -/
theorem C1_witness :
    (suggestParameters (fun q => q) (fun q => q) c6Cfg ⟨[]⟩ (fun _ => 0) 7
      "b" "m" []).2 = none ∧
    (getPredictionCurve (fun q => q) (fun q => q) c6Cfg ⟨[]⟩ "b" "m" 0
      ⟨none, []⟩ []).2 = .ok none :=
  ⟨(C1_read_side_error_policy (fun q => q) (fun q => q) c6Cfg ⟨[]⟩
      (fun _ => 0) 7 "b" "m" 0 ⟨none, []⟩ []).1 rfl,
    (C1_read_side_error_policy (fun q => q) (fun q => q) c6Cfg ⟨[]⟩
      (fun _ => 0) 7 "b" "m" 0 ⟨none, []⟩ []).2.2.2.2.1 rfl⟩
